import Mathlib

/-!
Verification development for the prompt-discipline core: the session-log
parser and event classifier (mcp-server/src/lib/embeddings.ts,
session-parser section), the prompt triage classifier (lib/triage),
and the scorecard engine with its historical baseline (generate_scorecard).

Strings are modelled as Lean `String` (ASCII payloads; JS strings are
UTF-16 but every string operation used by the code is per-code-unit and
all inputs of interest are ASCII).  JS `number` is modelled as `ℚ` with
`Math.round x = ⌊x + 1/2⌋`; the only division-by-zero site
(scoreTokenEfficiency's ratio, NaN/Infinity in JS) is modelled by an
explicit zero-denominator branch that reproduces the JS outcome.
External runtime primitives (`JSON.parse`, `Date` parsing/printing,
`randomUUID`, the filesystem) are passed in as explicit parameters:
`JSON.parse` as a `String → Option JValue` oracle, `Date` as a
`DateOracle`, `randomUUID` as a fresh-id counter, and the filesystem as
a partial map from paths to file data.
-/

-- ═══════════════════════════════════════════════════════════════════════════
-- JS string primitives
-- ═══════════════════════════════════════════════════════════════════════════

/-- JS `\w` character class: ASCII letters, digits and underscore. -/
def wordChar (c : Char) : Bool :=
  (('a' ≤ c ∧ c ≤ 'z') ∨ ('A' ≤ c ∧ c ≤ 'Z') ∨ ('0' ≤ c ∧ c ≤ '9') ∨ c = '_')

/-- JS `\s` character class (ASCII part). -/
def wsChar (c : Char) : Bool :=
  c = ' ' ∨ c = '\t' ∨ c = '\n' ∨ c = '\r' ∨ c = '\x0b' ∨ c = '\x0c'

/-- ASCII digit. -/
def digitChar (c : Char) : Bool := '0' ≤ c ∧ c ≤ '9'

/-- JS `String.prototype.toLowerCase` (ASCII; inputs of interest are ASCII). -/
def jsLower (s : String) : String := ⟨s.data.map Char.toLower⟩

/-- JS `String.prototype.trim`: strip leading and trailing whitespace. -/
def jsTrim (s : String) : String :=
  ⟨(s.data.dropWhile (fun c => wsChar c)).reverse.dropWhile (fun c => wsChar c) |>.reverse⟩

/-- The character sequence `sub` occurs in `s` at index `i`. -/
def substrAt (sub s : List Char) (i : ℕ) : Bool :=
  decide (sub = (s.drop i).take sub.length)

/-- JS `String.prototype.includes`. -/
def jsIncludes (s sub : String) : Bool :=
  (List.range (s.data.length + 1)).any (fun i => substrAt sub.data s.data i)

/-- Case-insensitive substring containment (a `/.../i` regex of a literal). -/
def jsIncludesCI (s sub : String) : Bool := jsIncludes (jsLower s) (jsLower sub)

/-- Regex `\bphrase\b` with the `i` flag, for a phrase whose first and last
characters are word characters (true of every phrase the code tests):
the phrase occurs with no word character immediately before or after. -/
def wordTestCI (phrase : String) (s : String) : Bool :=
  let t := (jsLower s).data
  let p := (jsLower phrase).data
  (List.range (t.length + 1)).any fun i =>
    substrAt p t i ∧
    (i = 0 ∨ ¬ wordChar (t.getD (i - 1) ' ')) ∧
    (i + p.length = t.length ∨ ¬ wordChar (t.getD (i + p.length) ' '))

/-- JS `str.split(/\s+/)`: tokens separated by maximal whitespace runs; a
leading (resp. trailing) run contributes an initial (resp. final) empty
token, and the empty string yields `[""]`. -/
def splitWsList : List Char → List (List Char)
  | [] => [[]]
  | c :: cs =>
    let r := splitWsList cs
    if wsChar c then
      match cs with
      | d :: _ => if wsChar d then r else [] :: r
      | [] => [] :: r
    else
      match r with
      | [] => [[c]]
      | t :: ts => (c :: t) :: ts

/-- JS `str.split(/\s+/)` on strings.  The splitter above recurses past the
leading whitespace run only once per token, which matches JS: only a
*leading* run produces an empty first token. -/
def jsSplitWs (s : String) : List String :=
  ((splitWsList s.data).map (fun l => (⟨l⟩ : String)))

/-- JS `str.split(sep)` for a nonempty literal separator, scanning left to
right without overlap.  The fuel covers one step per consumed character
and is never exhausted. -/
def splitOnFuel (sep : List Char) : ℕ → List Char → List (List Char)
  | _, [] => [[]]
  | 0, s => [s]
  | fuel + 1, c :: cs =>
    if sep.isPrefixOf (c :: cs) ∧ sep ≠ [] then
      [] :: splitOnFuel sep fuel (cs.drop (sep.length - 1))
    else
      match splitOnFuel sep fuel cs with
      | [] => [[c]]
      | t :: ts => (c :: t) :: ts

/-- JS `str.split(sep)` on strings. -/
def jsSplitOn (sep s : String) : List String :=
  (splitOnFuel sep.data (s.data.length + 1) s.data).map (fun l => (⟨l⟩ : String))

/-- JS `Array.prototype.join(sep)`. -/
def joinSep (sep : String) : List String → String
  | [] => ""
  | [x] => x
  | x :: xs => x ++ sep ++ joinSep sep xs

/-- JS `String.prototype.startsWith`. -/
def jsStartsWith (s pre : String) : Bool := pre.data.isPrefixOf s.data

/-- JS `String.prototype.endsWith`. -/
def jsEndsWith (s suf : String) : Bool := suf.data.reverse.isPrefixOf s.data.reverse

/-- JS `Math.round`: round half toward +∞, i.e. `⌊x + 1/2⌋`, written as an
integer division so that it evaluates by kernel reduction; the floor
characterization is `jsRound_eq_floor` below. -/
def jsRound (q : ℚ) : ℤ := (2 * q.num + (q.den : ℤ)) / (2 * (q.den : ℤ))

theorem jsRound_eq_floor (q : ℚ) : jsRound q = ⌊q + 1/2⌋ := by
  have hq : q + 1/2 = ((2 * q.num + (q.den : ℤ) : ℤ) : ℚ) / ((2 * q.den : ℕ) : ℚ) := by
    rw [eq_div_iff (by positivity)]
    push_cast
    rw [add_mul, mul_comm 2 (q.den : ℚ), ← mul_assoc, Rat.mul_den_eq_num]
    ring
  rw [hq, Rat.floor_intCast_div_natCast]
  unfold jsRound
  push_cast
  ring_nf

-- ═══════════════════════════════════════════════════════════════════════════
-- JSON values (the result shape of `JSON.parse`)
-- ═══════════════════════════════════════════════════════════════════════════

/-- A parsed JSON value.  `JSON.parse` itself is a runtime builtin and is
passed to the parser as an oracle `String → Option JValue` (`none` models
a thrown `SyntaxError`). -/
inductive JValue where
  | null : JValue
  | bool (b : Bool) : JValue
  | num (q : ℚ) : JValue
  | str (s : String) : JValue
  | arr (elems : List JValue) : JValue
  | obj (fields : List (String × JValue)) : JValue
deriving Inhabited

/-- JS property access `o.k` on a parsed object: `none` models `undefined`
(also for non-object receivers). -/
def jGet (v : JValue) (k : String) : Option JValue :=
  match v with
  | .obj fields => (fields.find? (fun p => p.1 = k)).map (·.2)
  | _ => none

/-- JS optional-chain access `o?.k` on an optional value. -/
def jGetOpt (v : Option JValue) (k : String) : Option JValue :=
  match v with
  | none => none
  | some x => jGet x k

/-- JS truthiness of a parsed JSON value. -/
def jTruthy (v : JValue) : Bool :=
  match v with
  | .null => false
  | .bool b => b
  | .num q => ¬ (q = 0)
  | .str s => ¬ (s = "")
  | .arr _ => true
  | .obj _ => true

/-- JS nullish coalescing `v ?? d` where `none` models `undefined`. -/
def jNullish (v : Option JValue) (d : JValue) : JValue :=
  match v with
  | none => d
  | some .null => d
  | some x => x

/-- Two-digit lowercase hex of a small codepoint (for `\u00XX` escapes). -/
def hex2 (n : ℕ) : String :=
  let dig := fun (k : ℕ) => (Nat.digitChar k)
  ⟨[dig (n / 16 % 16), dig (n % 16)]⟩

/-- JSON string escaping as performed by `JSON.stringify`. -/
def jsonEscape (s : String) : String :=
  ⟨s.data.flatMap (fun c =>
    if c = '"' then ['\\', '"']
    else if c = '\\' then ['\\', '\\']
    else if c = '\n' then ['\\', 'n']
    else if c = '\r' then ['\\', 'r']
    else if c = '\t' then ['\\', 't']
    else if c.val < 32 then '\\' :: 'u' :: '0' :: '0' :: (hex2 c.toNat).data
    else [c])⟩

/-- JS number-to-string for the integral values the code produces.
Non-integral values are printed as `num/den`; JS shortest round-trip float
formatting is not modelled — every claim-relevant number is an integer. -/
def jsNumStr (q : ℚ) : String :=
  if q.den = 1 then toString q.num else toString q.num ++ "/" ++ toString q.den

/-- `JSON.stringify` on parsed JSON values. -/
def jsonStringify : JValue → String
  | .null => "null"
  | .bool b => if b then "true" else "false"
  | .num q => jsNumStr q
  | .str s => "\"" ++ jsonEscape s ++ "\""
  | .arr elems => "[" ++
      joinSep "," (elems.attach.map (fun x => jsonStringify x.1)) ++ "]"
  | .obj fields => "\x7b" ++
      joinSep ","
        (fields.attach.map
          (fun p => "\"" ++ jsonEscape p.1.1 ++ "\":" ++ jsonStringify p.1.2)) ++
      "\x7d"
termination_by v => sizeOf v
decreasing_by
  · have := List.sizeOf_lt_of_mem x.2
    simp only [JValue.arr.sizeOf_spec]
    omega
  · have h1 := List.sizeOf_lt_of_mem p.2
    have h2 : sizeOf p.1.2 < sizeOf p.1 := by
      obtain ⟨a, b⟩ := p.1
      simp only [Prod.mk.sizeOf_spec]
      omega
    simp only [JValue.obj.sizeOf_spec]
    omega

/-- JS template-literal coercion `String(v)` for interpolated values. -/
def jsTemplateStr (v : JValue) : String :=
  match v with
  | .str s => s
  | .null => "null"
  | .bool b => if b then "true" else "false"
  | .num q => jsNumStr q
  | .arr elems => joinSep "," (elems.attach.map (fun x => jsTemplateStr x.1))
  | .obj _ => "[object Object]"
termination_by sizeOf v
decreasing_by
  have := List.sizeOf_lt_of_mem x.2
  simp only [JValue.arr.sizeOf_spec]
  omega

-- ═══════════════════════════════════════════════════════════════════════════
-- Session Log Parser (session-parser.ts section of embeddings.ts)
-- ═══════════════════════════════════════════════════════════════════════════

/-- External `Date` runtime primitives used by the parser and classifier:
`strToIso s` models `new Date(s)` followed by `toISOString` (`none` when
the parse is `NaN`), `msToIso` the same for a numeric epoch value, and
`getTime` models `new Date(s).getTime()` (`none` for `NaN`). -/
structure DateOracle where
  strToIso : String → Option String
  msToIso : ℚ → Option String
  getTime : String → Option ℚ

/-- A normalized timeline event.  `id` is assigned by `randomUUID()` in the
source; the opaque unique id is modelled as the event's creation index. -/
structure TimelineEvent where
  id : ℕ
  timestamp : String
  type : String
  project : String
  project_name : String
  branch : String
  session_id : String
  source_file : String
  source_line : ℕ
  content : String
  content_preview : String
  metadata : String
deriving DecidableEq, Inhabited

/-- `CORRECTION_PATTERNS` of the session parser: seven case-insensitive
word-bounded phrase regexes (note: `undo` is present, `revert` is not). -/
def CORRECTION_PATTERNS : List String :=
  ["no", "wrong", "not that", "i meant", "actually", "instead", "undo"]

/-- `isCorrection`: some correction pattern matches the text. -/
def isCorrection (text : String) : Bool :=
  CORRECTION_PATTERNS.any (fun p => wordTestCI p text)

/-- `extractText`: a plain string is returned as is; an array contributes the
`text` field of each block whose `type` is `"text"`, joined by newlines;
anything else gives the empty string. -/
def extractText (content : Option JValue) : String :=
  match content with
  | some (.str s) => s
  | some (.arr blocks) =>
      joinSep "\n" (blocks.filterMap (fun b =>
        match jGet b "type", jGet b "text" with
        | some (.str "text"), some (.str t) => some t
        | _, _ => none))
  | _ => ""

/-- `extractToolUseBlocks`: the array elements whose `type` is `"tool_use"`. -/
def extractToolUseBlocks (content : Option JValue) : List JValue :=
  match content with
  | some (.arr blocks) =>
      blocks.filter (fun b =>
        match jGet b "type" with
        | some (.str "tool_use") => true
        | _ => false)
  | _ => []

/-- `normalizeTimestamp`: falsy → fallback; a string is date-parsed (invalid →
fallback); a number is epoch seconds when below `1e12` else milliseconds;
any other shape falls back. -/
def normalizeTimestamp (d : DateOracle) (ts : Option JValue) (fallback : String) : String :=
  match ts with
  | none => fallback
  | some v =>
    if ¬ jTruthy v then fallback
    else match v with
      | .str s => (d.strToIso s).getD fallback
      | .num q => (d.msToIso (if q < (10 ^ 12 : ℚ) then q * 1000 else q)).getD fallback
      | _ => fallback

/-- `preview`: first line of the text, truncated to 120 characters with an
ellipsis appended when longer. -/
def preview (text : String) : String :=
  let line := ((jsSplitOn "\n" text).headD "")
  if line.length > 120 then (⟨line.data.take 120⟩ : String) ++ "…" else line

/-- `makeEvent`: build an event, computing `content_preview` once at creation
(no call site supplies its own preview).  The `randomUUID` id is assigned
afterwards by the parser's fresh-id numbering. -/
def makeEvent (project projectName branch sessionId sourceFile : String)
    (sourceLine : ℕ) (timestamp type content metadata : String) : TimelineEvent :=
  { id := 0
    timestamp := timestamp
    type := type
    project := project
    project_name := projectName
    branch := branch
    session_id := sessionId
    source_file := sourceFile
    source_line := sourceLine
    content := content
    content_preview := preview content
    metadata := metadata }

/-- String value of the `type` field of a record, `""` when absent. -/
def recType (obj : JValue) : String :=
  match jGet obj "type" with
  | some (.str s) => s
  | _ => ""

/-- `processRecord`: derive the timeline events of one parsed record. -/
def processRecord (d : DateOracle) (obj : JValue)
    (filePath project projectName branch sessionId fallbackTs : String)
    (lineNum : ℕ) (lastType : String) : List TimelineEvent :=
  let ts := normalizeTimestamp d (jGet obj "timestamp") fallbackTs
  let mk := makeEvent project projectName branch sessionId filePath lineNum ts
  if recType obj = "user" then
    let text := extractText (jGetOpt (jGet obj "message") "content")
    if text = "" then []
    else
      let isCorr := lastType = "assistant" ∧ isCorrection text
      [mk (if isCorr then "correction" else "prompt") text "\x7b\x7d"]
  else if recType obj = "assistant" then
    let content := jGetOpt (jGet obj "message") "content"
    let text := extractText content
    let textEvents :=
      if text = "" then []
      else [mk "assistant" text
              (jsonStringify (.obj [("model", jNullish (jGet obj "model") (.str ""))]))]
    let toolEvents := (extractToolUseBlocks content).map (fun tool =>
      let nameV := jNullish (jGet tool "name") (.str "unknown")
      let argsStr :=
        match jGet tool "input" with
        | some (.str s) => s
        | v => jsonStringify (jNullish v (.obj []))
      let isSub :=
        match nameV with
        | .str "Task" => true
        | .str "dispatch_agent" => true
        | _ => false
      mk (if isSub then "sub_agent_spawn" else "tool_call")
        (jsTemplateStr nameV ++ ": " ++ (⟨argsStr.data.take 100⟩ : String))
        (jsonStringify (.obj [("tool", nameV)])))
    textEvents ++ toolEvents
  else if recType obj = "tool_result" then
    let isErr :=
      (match jGet obj "is_error" with
       | some (.bool true) => true
       | _ => false) ||
      (match jGet obj "content" with
       | some (.str s) => jsIncludesCI s "stderr"
       | _ => false)
    if isErr then
      let text0 := extractText (jGet obj "content")
      let text :=
        if text0 = "" then
          (⟨(jsonStringify (jNullish (jGet obj "content") (.str ""))).data.take 200⟩ : String)
        else text0
      [mk "error" text
        (jsonStringify (.obj [("tool_use_id", jNullish (jGet obj "tool_use_id") (.str ""))]))]
    else []
  else if recType obj = "system" then
    let c := jNullish (jGetOpt (jGet obj "message") "content")
              (jNullish (jGet obj "content") (.str ""))
    let text := extractText (some c)
    let isCompaction :=
      jsIncludesCI text "compact" ||
      (match jGet obj "subtype" with
       | some (.str "compaction") => true
       | _ => false)
    if isCompaction then
      [mk "compaction" (if text = "" then "context compacted" else text) "\x7b\x7d"]
    else []
  else []

/-- The session-scoped mutable parse state threaded across lines. -/
structure PState where
  branch : String
  sessionId : String
  lastType : String
deriving DecidableEq, Inhabited

/-- `basename(filePath, ".jsonl")`: the last path component, stripped of a
`.jsonl` extension when present. -/
def basenameJsonl (p : String) : String :=
  let b := ((jsSplitOn "/" p).getLastD p)
  if jsEndsWith b ".jsonl" then (⟨b.data.take (b.data.length - 6)⟩ : String) else b

/-- One loop iteration of `parseLinesSync` for the line at 0-based index
`idx`: blank and malformed lines are skipped (the stderr diagnostic is a
side effect outside the model), a `summary` record updates the state and
emits nothing, any other record is processed and then `lastType` is
updated for `user`/`assistant` records. -/
def lineStep (d : DateOracle) (jp : String → Option JValue)
    (filePath project projectName fallbackTs : String)
    (st : PState) (idx : ℕ) (rawLine : String) : List TimelineEvent × PState :=
  let line := jsTrim rawLine
  if line = "" then ([], st)
  else
    match jp line with
    | none => ([], st)
    | some obj =>
      if recType obj = "summary" then
        let branch' := jsTemplateStr (jNullish (jGet obj "gitBranch") (.str ""))
        let sid' :=
          match jGet obj "sessionId" with
          | some v => if jTruthy v then jsTemplateStr v else st.sessionId
          | none => st.sessionId
        ([], { st with branch := branch', sessionId := sid' })
      else
        let evts := processRecord d obj filePath project projectName
          st.branch st.sessionId fallbackTs (idx + 1) st.lastType
        let lastType' :=
          if recType obj = "user" then "user"
          else if recType obj = "assistant" then "assistant"
          else st.lastType
        (evts, { st with lastType := lastType' })

/-- The events of a run of (index, line) pairs from state `st`. -/
def runLines (d : DateOracle) (jp : String → Option JValue)
    (filePath project projectName fallbackTs : String) :
    PState → List (ℕ × String) → List TimelineEvent
  | _, [] => []
  | st, (i, l) :: rest =>
    let step := lineStep d jp filePath project projectName fallbackTs st i l
    step.1 ++ runLines d jp filePath project projectName fallbackTs step.2 rest

/-- The final parse state after a run of (index, line) pairs. -/
def runState (d : DateOracle) (jp : String → Option JValue)
    (filePath project projectName fallbackTs : String) :
    PState → List (ℕ × String) → PState
  | st, [] => st
  | st, (i, l) :: rest =>
    runState d jp filePath project projectName fallbackTs
      (lineStep d jp filePath project projectName fallbackTs st i l).2 rest

/-- Pair each line with its 0-based index, starting at `i`. -/
def numberFrom (i : ℕ) : List String → List (ℕ × String)
  | [] => []
  | l :: ls => (i, l) :: numberFrom (i + 1) ls

/-- Assign fresh ids in creation order (the `randomUUID` supply). -/
def withIds : List TimelineEvent → ℕ → List TimelineEvent
  | [], _ => []
  | e :: es, n => { e with id := n } :: withIds es (n + 1)

/-- The initial parse state of one file. -/
def initState (filePath : String) : PState :=
  { branch := "", sessionId := basenameJsonl filePath, lastType := "" }

/-- `parseLinesSync`: parse the lines of one session file into events. -/
def parseLinesSync (d : DateOracle) (jp : String → Option JValue)
    (lines : List String) (filePath project projectName fallbackTs : String) :
    List TimelineEvent :=
  withIds
    (runLines d jp filePath project projectName fallbackTs
      (initState filePath) (numberFrom 0 lines)) 0

/-- The filesystem, as seen through `statSync`/`readFileSync`: a partial map
from paths to (mtime as ISO string, full text). -/
structure FileData where
  mtimeIso : String
  text : String

/-- `parseSession`: `statSync` on a missing path throws `ENOENT` (there is no
guard in the source; the large-file branch is an empty no-op).  On an
existing file the text is split on newlines and parsed. -/
def parseSession (d : DateOracle) (jp : String → Option JValue)
    (fs : String → Option FileData) (filePath project projectName : String) :
    Except String (List TimelineEvent) :=
  match fs filePath with
  | none => .error "ENOENT: no such file or directory"
  | some fd =>
    .ok (parseLinesSync d jp (jsSplitOn "\n" fd.text) filePath project projectName fd.mtimeIso)

-- ═══════════════════════════════════════════════════════════════════════════
-- Prompt Triage Classifier (lib/triage)
-- ═══════════════════════════════════════════════════════════════════════════

/-- The five escalating triage levels. -/
inductive TriageLevel where
  | trivial : TriageLevel
  | clear : TriageLevel
  | ambiguous : TriageLevel
  | crossService : TriageLevel
  | multiStep : TriageLevel
deriving DecidableEq, Inhabited

/-- The triage classification result. -/
structure TriageResult where
  level : TriageLevel
  confidence : ℚ
  reasons : List String
  recommended_tools : List String
  cross_service_hits : Option (List String) := none
deriving DecidableEq, Inhabited

/-- The triage configuration; every field is optional in the source. -/
structure TriageConfig where
  alwaysCheck : Option (List String) := none
  skip : Option (List String) := none
  crossServiceKeywords : Option (List String) := none
  strictness : Option String := none
  relatedAliases : Option (List String) := none
deriving Inhabited

def TRIVIAL_COMMANDS : List String :=
  ["commit", "format", "lint", "run tests", "push", "pull",
   "status", "build", "test", "deploy", "start", "stop", "restart"]

def VAGUE_VERBS : List String := ["fix", "update", "change"]

def CROSS_SERVICE_TERMS : List String := ["schema", "contract", "interface", "event"]

/-- `lower`: `s.toLowerCase().trim()`. -/
def lower (s : String) : String := jsTrim (jsLower s)

/-- `isTrivialCommand`: the lowered prompt is a trivial command or starts
with one followed by a space. -/
def isTrivialCommand (prompt : String) : Bool :=
  TRIVIAL_COMMANDS.any (fun cmd =>
    lower prompt = cmd || jsStartsWith (lower prompt) (cmd ++ " "))

/-- All characters of `s` in the half-open index range `[i, j)` satisfy `cls`. -/
def allIn (s : List Char) (cls : Char → Bool) (i j : ℕ) : Bool :=
  (List.range (j - i)).all (fun k => cls (s.getD (i + k) ' '))

/-- Character class `[.\w\-\/\\]` of `FILE_PATH_RE`. -/
def clsFP (c : Char) : Bool := c = '.' || wordChar c || c = '-' || c = '/' || c = '\\'

/-- Leading class `[\s,:(]` of `FILE_PATH_RE`. -/
def leadFP (c : Char) : Bool := wsChar c || c = ',' || c = ':' || c = '('

/-- `hasFileRefs`: test of `FILE_PATH_RE`, i.e. of
`(?:^|[\s,:(])([.\w\-\/\\]+\.\w{1,6})\b`: at some position preceded by the
start or a separator, a nonempty run of path characters, a dot, one to six
word characters and a word boundary. -/
def hasFileRefs (prompt : String) : Bool :=
  let s := prompt.data
  let n := s.length
  (List.range n).any fun a =>
    (decide (a = 0) || leadFP (s.getD (a - 1) ' ')) &&
    ((List.range (n + 1)).any fun b =>
      a + 1 ≤ b ∧ b < n ∧ allIn s clsFP a b ∧ s.getD b ' ' = '.' ∧
      ((List.range 7).any fun k =>
        1 ≤ k ∧ b + 1 + k ≤ n ∧ allIn s (fun c => wordChar c) (b + 1) (b + 1 + k) ∧
        (b + 1 + k = n ∨ ¬ wordChar (s.getD (b + 1 + k) ' '))))

/-- `hasLineNumbers`: test of `LINE_NUMBER_RE`, i.e. of
`\bline\s+\d+|:\d+\b`. -/
def hasLineNumbers (prompt : String) : Bool :=
  let s := prompt.data
  let n := s.length
  ((List.range n).any fun i =>
    (decide (i = 0) || decide (¬ wordChar (s.getD (i - 1) ' '))) &&
    substrAt "line".data s i &&
    ((List.range (n + 1)).any fun m =>
      1 ≤ m ∧ allIn s (fun c => wsChar c) (i + 4) (i + 4 + m) ∧
      i + 4 + m < n ∧ digitChar (s.getD (i + 4 + m) ' '))) ||
  ((List.range n).any fun i =>
    decide (s.getD i ' ' = ':') &&
    ((List.range (n + 1)).any fun k =>
      1 ≤ k ∧ i + 1 + k ≤ n ∧ allIn s (fun c => digitChar c) (i + 1) (i + 1 + k) ∧
      (i + 1 + k = n ∨ ¬ wordChar (s.getD (i + 1 + k) ' '))))

/-- `hasVaguePronouns`: test of `\b(it|them|the thing|those|these)\b` (`i`). -/
def hasVaguePronouns (prompt : String) : Bool :=
  ["it", "them", "the thing", "those", "these"].any (fun p => wordTestCI p prompt)

/-- Test of `/\.\w+/`: a dot directly followed by a word character. -/
def dotWordTest (w : String) : Bool :=
  let s := w.data
  (List.range s.length).any fun i =>
    decide (s.getD i ' ' = '.') && decide (i + 1 < s.length) && wordChar (s.getD (i + 1) ' ')

/-- Test of `/[A-Z]/`. -/
def hasUpper (w : String) : Bool := w.data.any (fun c => 'A' ≤ c ∧ c ≤ 'Z')

/-- `hasVagueVerbs`: a vague verb occurs as a whitespace-token of the lowered
prompt with no concrete target among the next three tokens (a token with a
file extension, longer than six characters, or containing a capital —
the tokens are already lowercased, mirroring the source). -/
def hasVagueVerbs (prompt : String) : Bool :=
  let words := jsSplitWs (lower prompt)
  VAGUE_VERBS.any (fun verb =>
    match words.findIdx? (fun w => w = verb) with
    | none => false
    | some idx =>
      let tail := (words.drop (idx + 1)).take 3
      ¬ tail.any (fun w => dotWordTest w || decide (w.length > 6) || hasUpper w))

/-- `detectCrossService`: hits from configured keywords, related-project
aliases, and the built-in cross-service terms, in that order. -/
def detectCrossService (prompt : String) (config : TriageConfig) : List String :=
  let p := lower prompt
  ((config.crossServiceKeywords.getD []).filterMap (fun kw =>
    if jsIncludes p (lower kw) then some ("keyword: " ++ kw) else none)) ++
  ((config.relatedAliases.getD []).filterMap (fun al =>
    if jsIncludes p (lower al) then some ("project: " ++ al) else none)) ++
  (CROSS_SERVICE_TERMS.filterMap (fun term =>
    if jsIncludes p term then some ("term: " ++ term) else none))

/-- End of the maximal run of `cls` characters starting at index `i`. -/
def runEnd (s : List Char) (cls : Char → Bool) (i : ℕ) : ℕ :=
  i + ((s.drop i).takeWhile cls).length

/-- Character class `[\w\-./\\]` of the multi-file regex. -/
def clsFile (c : Char) : Bool := wordChar c || c = '-' || c = '.' || c = '/' || c = '\\'

/-- End position of the match of `[\w\-./\\]+\.\w{1,6}` starting at index
`i`, if any: the greedy leading run backtracks to the last dot that is
followed by a word character, then takes up to six word characters. -/
def tryFileMatch (s : List Char) (i : ℕ) : Option ℕ :=
  if i < s.length ∧ clsFile (s.getD i ' ') then
    let m := runEnd s clsFile i
    match (List.range m).reverse.find? (fun b =>
      i < b ∧ b < m ∧ s.getD b ' ' = '.' ∧ b + 1 < s.length ∧ wordChar (s.getD (b + 1) ' ')) with
    | none => none
    | some b =>
      let w := runEnd s (fun c => wordChar c) (b + 1)
      some (b + 1 + min 6 (w - (b + 1)))
  else none

/-- All matches of `/[\w\-./\\]+\.\w{1,6}/g`, scanning left to right and
resuming after each match.  The guard `i < e` always holds (a match ends
strictly after its start) and the step count is bounded by the string
length, so the fuel of `filesFromAux` is never exhausted. -/
def filesFromAux (s : List Char) : ℕ → ℕ → List (List Char)
  | 0, _ => []
  | fuel + 1, i =>
    if i < s.length then
      match tryFileMatch s i with
      | some e =>
        if i < e then ((s.drop i).take (e - i)) :: filesFromAux s fuel e
        else []
      | none => filesFromAux s fuel (i + 1)
    else []

def filesFrom (s : List Char) (i : ℕ) : List (List Char) :=
  filesFromAux s (s.length + 1) i

/-- `prompt.match(/[\w\-./\\]+\.\w{1,6}/g) ?? []`. -/
def fileMatches (prompt : String) : List String :=
  (filesFrom prompt.data 0).map (fun l => (⟨l⟩ : String))

/-- `f.split('/')[0]`: the leading segment before the first slash. -/
def dirOf (f : String) : String := ⟨f.data.takeWhile (fun c => c ≠ '/')⟩

/-- Word-at-index test for `\bphrase\b` (`i` flag): occurrence at `i` with
word boundaries on both sides. -/
def wordAtCI (phrase : String) (s : List Char) (i : ℕ) : Bool :=
  let t := s.map Char.toLower
  let p := (jsLower phrase).data
  substrAt p t i &&
  (decide (i = 0) || decide (¬ wordChar (t.getD (i - 1) ' '))) &&
  (decide (i + p.length = t.length) || decide (¬ wordChar (t.getD (i + p.length) ' ')))

/-- Test of `MULTI_STEP_SEQUENTIAL = /\b(then|after that|first\b.*\bthen|finally)\b/i`.
The third alternative requires `first` and a later `then` with no newline
between them (`.` does not cross lines). -/
def seqTest (prompt : String) : Bool :=
  let s := prompt.data
  wordTestCI "then" prompt ||
  wordTestCI "after that" prompt ||
  ((List.range s.length).any fun i =>
    wordAtCI "first" s i &&
    ((List.range s.length).any fun j =>
      i + 5 ≤ j ∧ wordAtCI "then" s j ∧ allIn s (fun c => c ≠ '\n') (i + 5) j)) ||
  wordTestCI "finally" prompt

/-- Test of `/\n\s*[1-9][.)]\s/`. -/
def numberedListTest (prompt : String) : Bool :=
  let s := prompt.data
  let n := s.length
  (List.range n).any fun i =>
    decide (s.getD i ' ' = '\n') &&
    ((List.range n).any fun m =>
      allIn s (fun c => wsChar c) (i + 1) (i + 1 + m) ∧
      (let d := i + 1 + m
       d + 2 < n ∧ '1' ≤ s.getD d ' ' ∧ s.getD d ' ' ≤ '9' ∧
       (s.getD (d + 1) ' ' = '.' ∨ s.getD (d + 1) ' ' = ')') ∧
       wsChar (s.getD (d + 2) ' ')))

/-- Test of `/\n\s*[-*]\s/`. -/
def bulletListTest (prompt : String) : Bool :=
  let s := prompt.data
  let n := s.length
  (List.range n).any fun i =>
    decide (s.getD i ' ' = '\n') &&
    ((List.range n).any fun m =>
      allIn s (fun c => wsChar c) (i + 1) (i + 1 + m) ∧
      (let d := i + 1 + m
       d + 1 < n ∧ (s.getD d ' ' = '-' ∨ s.getD d ' ' = '*') ∧
       wsChar (s.getD (d + 1) ' ')))

/-- `isMultiStep`: clause-connecting " and ", sequential language, a
numbered or bulleted list, or multiple file references in different
top-level directories. -/
def isMultiStep (prompt : String) : Bool :=
  let p := lower prompt
  (jsIncludes p " and " &&
    ((jsSplitOn " and " p).all (fun part => (jsSplitWs (jsTrim part)).length ≥ 2))) ||
  seqTest prompt ||
  numberedListTest prompt || bulletListTest prompt ||
  (let files := fileMatches prompt
   decide (files.length > 1) && decide (((files.map dirOf).eraseDups).length > 1))

/-- `triagePrompt` (lib/triage): fixed priority order with early return —
skip keywords, multi-step, cross-service, always-check, trivial command,
ambiguity signals, then clear. -/
def triagePrompt (prompt : String) (config : Option TriageConfig) : TriageResult :=
  let cfg := config.getD {}
  let len := (jsTrim prompt).length
  match (cfg.skip.getD []).find? (fun kw => jsIncludes (lower prompt) (lower kw)) with
  | some kw =>
    { level := .trivial, confidence := 0.95,
      reasons := ["matches skip keyword: \"" ++ kw ++ "\""],
      recommended_tools := [] }
  | none =>
  if isMultiStep prompt then
    { level := .multiStep, confidence := 0.85,
      reasons := ["contains multi-step indicators"],
      recommended_tools := ["clarify-intent", "scope-work", "sequence-tasks"] }
  else
  let csHits := detectCrossService prompt cfg
  if csHits ≠ [] then
    { level := .crossService, confidence := 0.8,
      reasons := ["cross-service indicators: " ++ joinSep ", " csHits],
      recommended_tools := ["clarify-intent", "scope-work", "search-related-projects"],
      cross_service_hits := some csHits }
  else
  match (cfg.alwaysCheck.getD []).find? (fun kw => jsIncludes (lower prompt) (lower kw)) with
  | some kw =>
    { level := .ambiguous, confidence := 0.8,
      reasons := ["matches always_check keyword: \"" ++ kw ++ "\""],
      recommended_tools := ["clarify-intent", "scope-work"] }
  | none =>
  if len < 20 ∧ isTrivialCommand prompt then
    { level := .trivial, confidence := 0.9,
      reasons := ["short common command"],
      recommended_tools := [] }
  else
  let ambiguousReasons :=
    (if len < 50 ∧ ¬ hasFileRefs prompt then ["short prompt without file references"] else []) ++
    (if hasVaguePronouns prompt then ["contains vague pronouns"] else []) ++
    (if hasVagueVerbs prompt then ["contains vague verbs without specific targets"] else [])
  if ambiguousReasons ≠ [] then
    { level := .ambiguous, confidence := 0.7,
      reasons := ambiguousReasons,
      recommended_tools := ["clarify-intent", "scope-work"] }
  else
  let reasons :=
    (if hasFileRefs prompt then ["references specific file paths"] else []) ++
    (if hasLineNumbers prompt then ["references specific line numbers"] else []) ++
    (if len > 50 then ["detailed prompt with concrete nouns"] else [])
  let reasons := if reasons = [] then ["well-formed prompt with clear intent"] else reasons
  let clearTools : List String := if hasFileRefs prompt then ["verify-files-exist"] else []
  let clearTools :=
    if cfg.strictness = some "strict" ∧ clearTools = [] then ["verify-files-exist"]
    else clearTools
  { level := .clear,
    confidence := if cfg.strictness = some "strict" then 0.8 else 0.85,
    reasons := reasons,
    recommended_tools := clearTools }

/-- `isFilePath` of the sibling triage implementation (src/lib/config.ts
second half): the trimmed prompt is, in full, a bare file path —
`/^[\w\-./]+\.\w+$/` or `/^[\w\-./\\]+[\/\\][\w\-./\\]+\.\w+$/`. -/
def isFilePath (prompt : String) : Bool :=
  let t := (jsTrim prompt).data
  let n := t.length
  let cls1 := fun (c : Char) => wordChar c || c = '-' || c = '.' || c = '/'
  let cls2 := fun (c : Char) => clsFile c
  ((List.range n).any fun k =>
    1 ≤ k ∧ allIn t cls1 0 k ∧ t.getD k ' ' = '.' ∧ k + 1 < n ∧
    allIn t (fun c => wordChar c) (k + 1) n) ||
  ((List.range n).any fun i =>
    1 ≤ i ∧ allIn t cls2 0 i ∧ (t.getD i ' ' = '/' ∨ t.getD i ' ' = '\\') ∧
    ((List.range n).any fun k =>
      i + 2 ≤ k ∧ allIn t cls2 (i + 1) k ∧ t.getD k ' ' = '.' ∧ k + 1 < n ∧
      allIn t (fun c => wordChar c) (k + 1) n))

-- ═══════════════════════════════════════════════════════════════════════════
-- Scorecard Engine (generate_scorecard)
-- ═══════════════════════════════════════════════════════════════════════════

/-- Optional good/bad example excerpts of a category. -/
structure CatExamples where
  good : Option (List String) := none
  bad : Option (List String) := none
deriving DecidableEq, Inhabited

/-- One of the twelve category scores.  `score` is an integer in JS (every
assignment is a band constant, a default, or a `clamp` result). -/
structure CategoryScore where
  name : String
  score : ℤ
  grade : String
  evidence : String
  examples : Option CatExamples := none
deriving DecidableEq, Inhabited

/-- `letterGrade`: fixed thresholds. -/
def letterGrade (score : ℤ) : String :=
  if score ≥ 95 then "A+"
  else if score ≥ 90 then "A"
  else if score ≥ 85 then "A-"
  else if score ≥ 80 then "B+"
  else if score ≥ 75 then "B"
  else if score ≥ 70 then "B-"
  else if score ≥ 65 then "C+"
  else if score ≥ 60 then "C"
  else if score ≥ 55 then "C-"
  else if score ≥ 50 then "D"
  else "F"

/-- `clamp`: `Math.max(0, Math.min(100, Math.round(v)))`. -/
def clamp (v : ℚ) : ℤ := max 0 (min 100 (jsRound v))

/-- Character class `[\w.\/\-]` of `PATH_RE`. -/
def clsPath (c : Char) : Bool := wordChar c || c = '.' || c = '/' || c = '-'

/-- Test of `PATH_RE = /(?:\/[\w.\/\-]+\.\w{1,6}|\b\w+\.\w{2,6}\b)/`. -/
def pathReTest (text : String) : Bool :=
  let s := text.data
  let n := s.length
  ((List.range n).any fun i =>
    decide (s.getD i ' ' = '/') &&
    ((List.range (n + 1)).any fun b =>
      i + 2 ≤ b ∧ b < n ∧ allIn s clsPath (i + 1) b ∧ s.getD b ' ' = '.' ∧
      b + 1 < n ∧ wordChar (s.getD (b + 1) ' '))) ||
  ((List.range n).any fun a =>
    (decide (a = 0) || decide (¬ wordChar (s.getD (a - 1) ' '))) &&
    ((List.range (n + 1)).any fun b =>
      a + 1 ≤ b ∧ b < n ∧ allIn s (fun c => wordChar c) a b ∧ s.getD b ' ' = '.' ∧
      ((List.range 7).any fun k =>
        2 ≤ k ∧ b + 1 + k ≤ n ∧ allIn s (fun c => wordChar c) (b + 1) (b + 1 + k) ∧
        (b + 1 + k = n ∨ ¬ wordChar (s.getD (b + 1 + k) ' ')))))

/-- The extension alternatives of `FILE_EXT_RE` (case-sensitive). -/
def FILE_EXTS : List String :=
  ["ts", "tsx", "js", "jsx", "py", "rs", "go", "rb", "java", "c", "cpp", "h",
   "css", "scss", "html", "json", "yaml", "yml", "toml", "md", "sql", "sh"]

/-- Test of `FILE_EXT_RE = /\.\b(?:ts|tsx|…|sh)\b/`: a dot followed by one of
the extensions and a word boundary. -/
def fileExtReTest (text : String) : Bool :=
  let s := text.data
  let n := s.length
  FILE_EXTS.any fun ext =>
    (List.range n).any fun i =>
      decide (s.getD i ' ' = '.') && substrAt ext.data s (i + 1) &&
      (decide (i + 1 + ext.length = n) || decide (¬ wordChar (s.getD (i + 1 + ext.length) ' ')))

/-- `hasFileRef`: either path regex matches. -/
def hasFileRef (text : String) : Bool := pathReTest text || fileExtReTest text

/-- `pct`: zero denominator yields 100, else the rounded percentage. -/
def pct (num den : ℚ) : ℤ := if den = 0 then 100 else jsRound (num / den * 100)

/-- A session with its precomputed partitions by event type. -/
structure ParsedSession where
  id : String
  events : List TimelineEvent
  userMessages : List TimelineEvent
  assistantMessages : List TimelineEvent
  toolCalls : List TimelineEvent
  corrections : List TimelineEvent
  compactions : List TimelineEvent
  commits : List TimelineEvent
  subAgentSpawns : List TimelineEvent
  durationMinutes : ℚ
deriving DecidableEq, Inhabited

/-- `classifyEvents`: partition a session's events by type string and derive
the duration (note the filters use the strings `user_prompt`,
`assistant_response` and `git_commit`). -/
def classifyEvents (d : DateOracle) (events : List TimelineEvent) : ParsedSession :=
  let durationMinutes : ℚ :=
    if events.length ≥ 2 then
      match d.getTime ((events.headD default).timestamp),
            d.getTime ((events.getLastD default).timestamp) with
      | some first, some last => (last - first) / 60000
      | _, _ => 0
    else 0
  { id := (events.head?.map (·.session_id)).getD "unknown"
    events := events
    userMessages := events.filter (fun e => e.type = "user_prompt")
    assistantMessages := events.filter (fun e => e.type = "assistant_response")
    toolCalls := events.filter (fun e => e.type = "tool_call")
    corrections := events.filter (fun e => e.type = "correction")
    compactions := events.filter (fun e => e.type = "compaction")
    commits := events.filter (fun e => e.type = "git_commit")
    subAgentSpawns := events.filter (fun e => e.type = "sub_agent_spawn")
    durationMinutes := durationMinutes }

/-- `toFixed` (approximation: round half up on the rational value; the
claim-relevant numbers are integers or do not reach any report text). -/
def jsToFixed (q : ℚ) (d : ℕ) : String :=
  let p : ℤ := 10 ^ d
  let scaled := jsRound (q * p)
  if d = 0 then toString scaled
  else toString (scaled / p) ++ "." ++ toString (scaled % p)

-- ── Scoring functions ──────────────────────────────────────────────────────

/-- `scorePlans`. -/
def scorePlans (sessions : List ParsedSession) : CategoryScore :=
  if sessions.length = 0 then
    { name := "Plans", score := 75, grade := "B", evidence := "No sessions to analyze" }
  else
    let planned := sessions.countP (fun s =>
      (s.userMessages.take 3).any (fun m => m.content.length > 100 ∧ hasFileRef m.content))
    let score := clamp ((pct planned sessions.length : ℤ) : ℚ)
    { name := "Plans", score := score, grade := letterGrade score,
      evidence := toString planned ++ "/" ++ toString sessions.length ++
        " sessions began with file-specific planning prompts (>100 chars with file references)." }

/-- `scoreClarification`. -/
def scoreClarification (sessions : List ParsedSession) : CategoryScore :=
  let total : ℕ := sessions.foldl (fun acc s => acc + s.userMessages.length) 0
  let specific : ℕ := sessions.foldl
    (fun acc s => acc + s.userMessages.countP (fun m => hasFileRef m.content)) 0
  let score := clamp ((pct specific total : ℤ) : ℚ)
  { name := "Clarification", score := score, grade := letterGrade score,
    evidence := toString specific ++ "/" ++ toString total ++
      " user prompts contained file paths or specific identifiers." }

/-- `scoreDelegation`. -/
def scoreDelegation (sessions : List ParsedSession) : CategoryScore :=
  let total : ℕ := sessions.foldl (fun acc s => acc + s.subAgentSpawns.length) 0
  let quality : ℕ := sessions.foldl
    (fun acc s => acc + s.subAgentSpawns.countP (fun e => e.content.length > 200)) 0
  if total = 0 then
    { name := "Delegation", score := 75, grade := "B",
      evidence := "No sub-agent spawns detected. Default score." }
  else
    let score := clamp ((pct quality total : ℤ) : ℚ)
    { name := "Delegation", score := score, grade := letterGrade score,
      evidence := toString quality ++ "/" ++ toString total ++
        " sub-agent tasks had detailed descriptions (>200 chars)." }

/-- Pair each element of a list with its 0-based index. -/
def indexed {α : Type} (i : ℕ) : List α → List (ℕ × α)
  | [] => []
  | x :: xs => (i, x) :: indexed (i + 1) xs

/-- Accumulator of `scoreFollowUpSpecificity`. -/
structure FUAcc where
  followUps : ℕ
  specific : ℕ
  good : List String
  bad : List String

/-- `scoreFollowUpSpecificity`. -/
def scoreFollowUpSpecificity (sessions : List ParsedSession) : CategoryScore :=
  let acc := sessions.foldl (fun acc s =>
    (indexed 0 s.events).foldl (fun (a : FUAcc) (ie : ℕ × TimelineEvent) =>
      let ev := ie.2
      if ev.type ≠ "user_prompt" then a
      else
        let prev := ((s.events.take ie.1).reverse).find?
          (fun e => e.type = "assistant_response" ∨ e.type = "user_prompt")
        if (prev.map (·.type)) ≠ some "assistant_response" then a
        else
          if hasFileRef ev.content ∨ ev.content.length ≥ 50 then
            { a with
              followUps := a.followUps + 1
              specific := a.specific + 1
              good :=
                if a.good.length < 3 ∧ hasFileRef ev.content then
                  a.good ++ [(⟨ev.content.data.take 120⟩ : String)]
                else a.good }
          else
            { a with
              followUps := a.followUps + 1
              bad :=
                if a.bad.length < 3 then a.bad ++ [(⟨ev.content.data.take 80⟩ : String)]
                else a.bad }) acc)
    (⟨0, 0, [], []⟩ : FUAcc)
  let score := clamp ((pct acc.specific acc.followUps : ℤ) : ℚ)
  { name := "Follow-up Specificity", score := score, grade := letterGrade score,
    evidence := toString acc.specific ++ "/" ++ toString acc.followUps ++
      " follow-up prompts had specific file references or sufficient detail."
    examples := some
      { good := if acc.good.length ≠ 0 then some acc.good else none
        bad := if acc.bad.length ≠ 0 then some acc.bad else none } }

/-- Quote characters of the `file_path` capture regex (`"` and `'`). -/
def qChar (c : Char) : Bool := c = '"' || c = Char.ofNat 39

/-- Tail of the capture regex after the path word and optional quote:
`\s*[:=]\s*["']([^"']+)` — returns the capture group. -/
def matchFPTail (s : List Char) (j : ℕ) : Option (List Char) :=
  let j2 := runEnd s wsChar j
  if j2 < s.length ∧ (s.getD j2 ' ' = ':' ∨ s.getD j2 ' ' = '=') then
    let j3 := runEnd s wsChar (j2 + 1)
    if j3 < s.length ∧ qChar (s.getD j3 ' ') then
      let e := runEnd s (fun c => ¬ qChar c) (j3 + 1)
      if j3 + 1 < e then some ((s.drop (j3 + 1)).take (e - (j3 + 1))) else none
    else none
  else none

/-- Match of `(?:file_path|path)["']?\s*[:=]\s*["']([^"']+)` at index `i`
(alternation tries `file_path` first; the optional quote is greedy with
backtracking). -/
def matchFilePathAt (s : List Char) (i : ℕ) : Option (List Char) :=
  let j? : Option ℕ :=
    if substrAt "file_path".data s i then some (i + 9)
    else if substrAt "path".data s i then some (i + 4)
    else none
  match j? with
  | none => none
  | some j =>
    if j < s.length ∧ qChar (s.getD j ' ') then
      match matchFPTail s (j + 1) with
      | some r => some r
      | none => matchFPTail s j
    else matchFPTail s j

/-- Leftmost match: scan start positions left to right (the fuel covers the
whole scan). -/
def matchFilePathFromAux (s : List Char) : ℕ → ℕ → Option (List Char)
  | 0, _ => none
  | fuel + 1, i =>
    if i < s.length then
      match matchFilePathAt s i with
      | some r => some r
      | none => matchFilePathFromAux s fuel (i + 1)
    else none

def matchFilePathFrom (s : List Char) (i : ℕ) : Option (List Char) :=
  matchFilePathFromAux s (s.length + 1) i

/-- `tc.content.match(/(?:file_path|path)["']?\s*[:=]\s*["']([^"']+)/);`
the first capture group of the leftmost match. -/
def tcFilePath (content : String) : Option String :=
  (matchFilePathFrom content.data 0).map (fun l => (⟨l⟩ : String))

/-- `scoreTokenEfficiency`.  With no sessions both counters are zero; the JS
ratio `0/0` is `NaN` and every band comparison is false, landing on 40 —
modelled by the explicit zero-denominator branch. -/
def scoreTokenEfficiency (sessions : List ParsedSession) : CategoryScore :=
  let totalCalls : ℕ := sessions.foldl (fun acc s => acc + s.toolCalls.length) 0
  let totalFiles : ℕ := sessions.foldl (fun acc s =>
    let sz := ((s.toolCalls.filterMap (fun tc => tcFilePath tc.content)).eraseDups).length
    acc + (if sz = 0 then 1 else sz)) 0
  let ratio? : Option ℚ := if totalFiles = 0 then none else some ((totalCalls : ℚ) / totalFiles)
  let score0 : ℤ :=
    match ratio? with
    | none => 40
    | some r =>
      if r ≤ 5 then 100 else if r ≤ 10 then 90 else if r ≤ 20 then 75
      else if r ≤ 40 then 60 else 40
  let bloated : ℕ := (sessions.filter (fun s => s.toolCalls.length > 200)).length
  let score1 : ℤ := if bloated > 0 then clamp ((score0 : ℚ) - bloated * 10) else score0
  let final := clamp ((score1 : ℤ) : ℚ)
  { name := "Token Efficiency", score := final, grade := letterGrade final,
    evidence := toString totalCalls ++ " tool calls across " ++ toString totalFiles ++
      " unique files (ratio: " ++
      (match ratio? with | none => "NaN" | some r => jsToFixed r 1) ++ "). " ++
      toString bloated ++ " session(s) exceeded 200 tool calls." }

/-- First match of `/(?:\/[\w.\/\-]+)/`: a slash followed by a nonempty run
of path characters, leftmost occurrence. -/
def firstPathTokenFromAux (s : List Char) : ℕ → ℕ → Option (List Char)
  | 0, _ => none
  | fuel + 1, i =>
    if i < s.length then
      if s.getD i ' ' = '/' ∧ i + 1 < s.length ∧ clsPath (s.getD (i + 1) ' ') then
        some ((s.drop i).take (runEnd s clsPath (i + 1) - i))
      else firstPathTokenFromAux s fuel (i + 1)
    else none

def firstPathTokenFrom (s : List Char) (i : ℕ) : Option (List Char) :=
  firstPathTokenFromAux s (s.length + 1) i

/-- The "area" of a prompt: directory prefix of its first path-like token
(`pathMatch[0].split("/").slice(0, -1).join("/")`), `""` when absent. -/
def areaOf (content : String) : String :=
  match firstPathTokenFrom content.data 0 with
  | none => ""
  | some tok => joinSep "/" ((jsSplitOn "/" (⟨tok⟩ : String)).dropLast)

/-- `scoreSequencing`. -/
def scoreSequencing (sessions : List ParsedSession) : CategoryScore :=
  let step := fun (acc : ℕ × ℕ × String) (m : TimelineEvent) =>
    let area := areaOf m.content
    let switches :=
      if area ≠ "" ∧ acc.2.2 ≠ "" ∧ area ≠ acc.2.2 then acc.2.1 + 1 else acc.2.1
    let lastArea := if area ≠ "" then area else acc.2.2
    (acc.1 + 1, switches, lastArea)
  let total := sessions.foldl (fun (acc : ℕ × ℕ) s =>
    let r := s.userMessages.foldl step (acc.1, acc.2, "")
    (r.1, r.2.1)) (0, 0)
  let totalPrompts := total.1
  let totalSwitches := total.2
  let switchRate : ℚ := if totalPrompts > 0 then (totalSwitches : ℚ) / totalPrompts else 0
  let score : ℤ :=
    if switchRate ≤ 0.05 then 100 else if switchRate ≤ 0.1 then 90
    else if switchRate ≤ 0.2 then 75 else if switchRate ≤ 0.35 then 60 else 45
  let final := clamp ((score : ℤ) : ℚ)
  { name := "Sequencing", score := final, grade := letterGrade final,
    evidence := toString totalSwitches ++ " topic switches across " ++
      toString totalPrompts ++ " prompts (" ++ jsToFixed (switchRate * 100) 0 ++
      "% switch rate)." }

/-- `scoreCompactionManagement`. -/
def scoreCompactionManagement (sessions : List ParsedSession) : CategoryScore :=
  let counts := sessions.foldl (fun (acc : ℕ × ℕ) s =>
    s.compactions.foldl (fun (a : ℕ × ℕ) c =>
      let cIdx := s.events.findIdx (fun e => e = c)
      let lo := cIdx - 10
      let nearby := (s.events.drop lo).take (cIdx - lo)
      (a.1 + 1, if nearby.any (fun e => e.type = "git_commit") then a.2 + 1 else a.2))
      acc) (0, 0)
  let totalCompactions := counts.1
  let covered := counts.2
  if totalCompactions = 0 then
    { name := "Compaction Management", score := 100, grade := "A+",
      evidence := "No compactions needed — sessions stayed manageable." }
  else
    let score := clamp ((pct covered totalCompactions : ℤ) : ℚ)
    { name := "Compaction Management", score := score, grade := letterGrade score,
      evidence := toString covered ++ "/" ++ toString totalCompactions ++
        " compactions were preceded by a commit within 10 messages." }

/-- `scoreSessionLifecycle`. -/
def scoreSessionLifecycle (sessions : List ParsedSession) : CategoryScore :=
  if sessions.length = 0 then
    { name := "Session Lifecycle", score := 75, grade := "B", evidence := "No sessions." }
  else
    let good : ℚ := sessions.foldl (fun (g : ℚ) s =>
      if s.durationMinutes ≤ 0 then g + 1
      else if s.durationMinutes > 180 ∧ s.commits.length = 0 then g
      else
        let commitInterval : ℚ :=
          if s.commits.length > 0 then s.durationMinutes / s.commits.length
          else s.durationMinutes
        if commitInterval ≤ 30 then g + 1
        else if commitInterval ≤ 60 then g + 0.5 else g) 0
    let score := clamp ((pct ((jsRound good : ℤ) : ℚ) sessions.length : ℤ) : ℚ)
    { name := "Session Lifecycle", score := score, grade := letterGrade score,
      evidence := toString (jsRound good) ++ "/" ++ toString sessions.length ++
        " sessions had healthy commit frequency (every 15-30 min)." }

/-- `scoreErrorRecovery`. -/
def scoreErrorRecovery (sessions : List ParsedSession) : CategoryScore :=
  let totalMessages : ℕ := sessions.foldl (fun acc s => acc + s.events.length) 0
  let counts := sessions.foldl (fun (acc : ℕ × ℕ) s =>
    s.corrections.foldl (fun (a : ℕ × ℕ) c =>
      let cIdx := s.events.findIdx (fun e => e = c)
      let after := (s.events.drop (cIdx + 1)).take 2
      (a.1 + 1,
       if after.any (fun e => e.type = "tool_call" ∨ e.type = "assistant_response")
       then a.2 + 1 else a.2)) acc) (0, 0)
  let totalCorrections := counts.1
  let fastRecoveries := counts.2
  if totalCorrections = 0 then
    { name := "Error Recovery", score := 95, grade := "A", evidence := "No corrections needed." }
  else
    let correctionRate : ℚ :=
      if totalMessages > 0 then (totalCorrections : ℚ) / totalMessages else 0
    let score0 := clamp (100 - correctionRate * 500)
    let score :=
      if totalCorrections > 0 then
        clamp ((score0 : ℚ) + (pct fastRecoveries totalCorrections : ℤ) * (0.2 : ℚ))
      else score0
    { name := "Error Recovery", score := score, grade := letterGrade score,
      evidence := toString totalCorrections ++ " corrections (" ++
        jsToFixed (correctionRate * 100) 1 ++ "% of messages). " ++
        toString fastRecoveries ++ " recovered within 2 messages." }

/-- `scoreWorkspaceHygiene`. -/
def scoreWorkspaceHygiene (sessions : List ParsedSession) : CategoryScore :=
  let bonus : ℕ := sessions.countP (fun s =>
    let allContent := joinSep " " (s.events.map (·.content))
    jsIncludes allContent ".claude/" || jsIncludes allContent "CLAUDE.md")
  let score := clamp ((75 : ℚ) + (if bonus > 0 then (min (bonus * 5) 20 : ℕ) else 0))
  { name := "Workspace Hygiene", score := score, grade := letterGrade score,
    evidence := "Default baseline 75. " ++ toString bonus ++
      " session(s) referenced .claude/ workspace docs (+bonus)." }

/-- Test of `/CLAUDE\.md|\.claude\/|checkpoint|context|README/i`. -/
def contextDocTest (content : String) : Bool :=
  ["CLAUDE.md", ".claude/", "checkpoint", "context", "README"].any
    (fun t => jsIncludesCI content t)

/-- `scoreCrossSessionContinuity`. -/
def scoreCrossSessionContinuity (sessions : List ParsedSession) : CategoryScore :=
  if sessions.length = 0 then
    { name := "Cross-Session Continuity", score := 75, grade := "B", evidence := "No sessions." }
  else
    let good : ℕ := sessions.countP (fun s =>
      (s.toolCalls.take 3).any (fun tc => contextDocTest tc.content))
    let score := clamp ((pct good sessions.length : ℤ) : ℚ)
    { name := "Cross-Session Continuity", score := score, grade := letterGrade score,
      evidence := toString good ++ "/" ++ toString sessions.length ++
        " sessions started by reading project context docs." }

/-- Test of `/test|build|lint|check|verify|jest|vitest|pytest|cargo.test/i`
(the dot of `cargo.test` is an any-character-but-newline wildcard). -/
def verifyTest (content : String) : Bool :=
  (["test", "build", "lint", "check", "verify", "jest", "vitest", "pytest"].any
    (fun t => jsIncludesCI content t)) ||
  (let s := (jsLower content).data
   (List.range s.length).any fun i =>
     substrAt "cargo".data s i ∧ i + 5 < s.length ∧ s.getD (i + 5) ' ' ≠ '\n' ∧
     substrAt "test".data s (i + 6))

/-- `scoreVerification`.  `Math.floor(totalEvents * 0.9)` is `9·n / 10`. -/
def scoreVerification (sessions : List ParsedSession) : CategoryScore :=
  if sessions.length = 0 then
    { name := "Verification", score := 75, grade := "B", evidence := "No sessions." }
  else
    let verified : ℕ := sessions.countP (fun s =>
      let tail := s.events.drop (9 * s.events.length / 10)
      tail.any (fun e => e.type = "tool_call" ∧ verifyTest e.content))
    let score := clamp ((pct verified sessions.length : ℤ) : ℚ)
    { name := "Verification", score := score, grade := letterGrade score,
      evidence := toString verified ++ "/" ++ toString sessions.length ++
        " sessions ran tests/builds in the final 10% of events." }

-- ── Scorecard assembly ─────────────────────────────────────────────────────

/-- The best/worst highlight pair. -/
structure SCHighlights where
  best : CategoryScore
  worst : CategoryScore
deriving DecidableEq, Inhabited

/-- A complete scorecard. -/
structure Scorecard where
  project : String
  period : String
  date : String
  overall : ℤ
  overallGrade : String
  categories : List CategoryScore
  highlights : SCHighlights
deriving DecidableEq, Inhabited

/-- Stable insertion used to model `[...categories].sort((a, b) => b.score - a.score)`:
JS `Array.prototype.sort` is stable, so an element is placed before the
first element whose score is not larger, keeping original order on ties. -/
def insertDesc (x : CategoryScore) : List CategoryScore → List CategoryScore
  | [] => [x]
  | y :: ys => if x.score ≥ y.score then x :: y :: ys else y :: insertDesc x ys

/-- Stable sort by descending score. -/
def sortByScoreDesc (l : List CategoryScore) : List CategoryScore :=
  l.foldr insertDesc []

/-- `computeScorecard`.  `new Date().toISOString().slice(0, 10)` is supplied
as the `today` parameter. -/
def computeScorecard (today : String) (sessions : List ParsedSession)
    (project period : String) : Scorecard :=
  let categories : List CategoryScore :=
    [scorePlans sessions,
     scoreClarification sessions,
     scoreDelegation sessions,
     scoreFollowUpSpecificity sessions,
     scoreTokenEfficiency sessions,
     scoreSequencing sessions,
     scoreCompactionManagement sessions,
     scoreSessionLifecycle sessions,
     scoreErrorRecovery sessions,
     scoreWorkspaceHygiene sessions,
     scoreCrossSessionContinuity sessions,
     scoreVerification sessions]
  let overall := clamp ((jsRound
    (((categories.foldl (fun acc c => acc + c.score) 0 : ℤ) : ℚ) / categories.length) : ℤ) : ℚ)
  let sorted := sortByScoreDesc categories
  { project := project
    period := period
    date := today
    overall := overall
    overallGrade := letterGrade overall
    categories := categories
    highlights := { best := sorted.headD default, worst := sorted.getLastD default } }

/-- Reference function for the highlight statement: the element of
`c :: rest` with the maximal score, the *earliest* winning ties (a later
element replaces the current champion only when strictly better). -/
def firstMaxBy (c : CategoryScore) : List CategoryScore → CategoryScore
  | [] => c
  | y :: ys =>
    let m := firstMaxBy y ys
    if m.score > c.score then m else c

/-- Reference function for the highlight statement: the element of
`c :: rest` with the minimal score, the *latest* winning ties (a later
element replaces the current champion already when equal). -/
def lastMinBy (c : CategoryScore) : List CategoryScore → CategoryScore
  | [] => c
  | y :: ys =>
    let m := lastMinBy y ys
    if m.score ≤ c.score then m else c

-- ── Historical baseline ────────────────────────────────────────────────────

/-- The persisted per-project baseline document. -/
structure BaselineData where
  categoryAverages : List (String × ℤ)
  overallAverage : ℤ
  sessionCount : ℕ
  lastUpdated : String
deriving DecidableEq, Inhabited

/-- The baseline store: one JSON document per project.  The on-disk layout
keys documents by an md5 hash of the project path; the hash is injective
on the projects considered, so the store is modelled as keyed by the
project string itself. -/
def BaselineStore : Type := List (String × BaselineData)

/-- `loadBaseline`: the stored document, `none` when absent (or corrupt). -/
def loadBaseline (store : BaselineStore) (project : String) : Option BaselineData :=
  ((List.find? (fun p => p.1 = project) store).map (·.2))

/-- `saveBaseline`: `writeFileSync` overwrites; a fresh entry shadows any
older one for the same project. -/
def saveBaseline (store : BaselineStore) (project : String) (data : BaselineData) :
    BaselineStore :=
  (project, data) :: store

/-- Record update `averages[name] = v`: replace in place, else append. -/
def updAvg (l : List (String × ℤ)) (k : String) (v : ℤ) : List (String × ℤ) :=
  if l.any (fun p => p.1 = k) then
    l.map (fun p => if p.1 = k then (k, v) else p)
  else l ++ [(k, v)]

/-- Lookup `averages[name]`. -/
def lookupAvg (l : List (String × ℤ)) (k : String) : Option ℤ :=
  (l.find? (fun p => p.1 = k)).map (·.2)

/-- `updateBaseline`: first run stores the scorecard as-is with count 1;
otherwise every average is advanced by the incremental mean
`round((old * n + new) / (n + 1))` and the count increments.
`new Date().toISOString()` is supplied as `now`. -/
def updateBaseline (now : String) (store : BaselineStore) (project : String)
    (scorecard : Scorecard) : BaselineStore :=
  match loadBaseline store project with
  | none =>
    saveBaseline store project
      { categoryAverages :=
          scorecard.categories.foldl (fun acc c => updAvg acc c.name c.score) []
        overallAverage := scorecard.overall
        sessionCount := 1
        lastUpdated := now }
  | some existing =>
    let n := existing.sessionCount
    let newN := n + 1
    let oa := jsRound ((((existing.overallAverage * n + scorecard.overall : ℤ)) : ℚ) / newN)
    let avgs := scorecard.categories.foldl (fun acc c =>
      let prev := (lookupAvg acc c.name).getD c.score
      updAvg acc c.name (jsRound ((((prev * n + c.score : ℤ)) : ℚ) / newN)))
      existing.categoryAverages
    saveBaseline store project
      { categoryAverages := avgs
        overallAverage := oa
        sessionCount := newN
        lastUpdated := now }

-- ═══════════════════════════════════════════════════════════════════════════
-- Concrete oracle instances for witnesses and counterexamples
-- ═══════════════════════════════════════════════════════════════════════════

/-- A `Date` oracle on which every parse fails (all timestamps fall back). -/
def trivialOracle : DateOracle :=
  { strToIso := fun _ => none, msToIso := fun _ => none, getTime := fun _ => none }

/-- A `JSON.parse` oracle on which every line is malformed. -/
def noParse : String → Option JValue := fun _ => none

-- ═══════════════════════════════════════════════════════════════════════════
-- C5 — parseSession on a missing file
-- ═══════════════════════════════════════════════════════════════════════════

/-- C5 counterexample: on a filesystem without the file, `parseSession`
propagates the `statSync` `ENOENT` error instead of returning an empty
event list — the claimed `.ok []` result does not happen. -/
theorem parseSession_missing_file_cx :
    parseSession trivialOracle noParse (fun _ => none) "missing.jsonl" "p" "n" =
      Except.error "ENOENT: no such file or directory" ∧
    parseSession trivialOracle noParse (fun _ => none) "missing.jsonl" "p" "n" ≠
      Except.ok [] := by
  constructor
  · rfl
  · simp [parseSession]

/-- C5 (amended): calling `parseSession` on a path that does not exist
raises (models the uncaught `statSync` `ENOENT` throw) rather than
returning an empty list. -/
theorem parseSession_missing_file (d : DateOracle) (jp : String → Option JValue)
    (fs : String → Option FileData) (filePath project projectName : String)
    (h : fs filePath = none) :
    parseSession d jp fs filePath project projectName =
      Except.error "ENOENT: no such file or directory" := by
  simp [parseSession, h]

/-- C5 witness for the amended theorem at a concrete missing path. -/
theorem parseSession_missing_file_witness :
    parseSession trivialOracle noParse (fun _ => none) "w.jsonl" "p" "n" =
      Except.error "ENOENT: no such file or directory" :=
  parseSession_missing_file trivialOracle noParse (fun _ => none) "w.jsonl" "p" "n" rfl

-- ═══════════════════════════════════════════════════════════════════════════
-- C2 — triage priority: skip beats everything; always-check forces ambiguous+
-- ═══════════════════════════════════════════════════════════════════════════

/-- C2 counterexample: a prompt containing both a configured skip keyword
and a configured always-check keyword, and matching the vague-verb
ambiguity signal, is classified `trivial` — not at least `ambiguous` as
the claim requires of every always-check-plus-vague-verb prompt. -/
theorem triage_skip_beats_alwaysCheck_cx :
    jsIncludes (lower "fix it so ok")
      (lower "it") = true ∧
    hasVagueVerbs "fix it so ok" = true ∧
    (triagePrompt "fix it so ok"
      (some { skip := some ["ok"], alwaysCheck := some ["it"] })).level =
      TriageLevel.trivial := by
  refine ⟨by decide, by decide, ?_⟩
  decide

/-- C2 (amended): (1) any skip-keyword match yields `trivial` with
confidence 0.95 regardless of every other signal (multi-step included);
(2) when no skip keyword matches, a prompt containing an always-check
keyword is classified `ambiguous`, `cross-service` or `multi-step` —
never `clear` and never `trivial`. -/
theorem triage_priority_amended (prompt : String) (config : Option TriageConfig) :
    ((∃ kw ∈ (config.getD {}).skip.getD [],
        jsIncludes (lower prompt) (lower kw) = true) →
      (triagePrompt prompt config).level = TriageLevel.trivial ∧
      (triagePrompt prompt config).confidence = 0.95) ∧
    ((∀ kw ∈ (config.getD {}).skip.getD [],
        jsIncludes (lower prompt) (lower kw) = false) →
      (∃ kw ∈ (config.getD {}).alwaysCheck.getD [],
        jsIncludes (lower prompt) (lower kw) = true) →
      ((triagePrompt prompt config).level = TriageLevel.ambiguous ∨
       (triagePrompt prompt config).level = TriageLevel.crossService ∨
       (triagePrompt prompt config).level = TriageLevel.multiStep)) := by
  constructor
  · rintro ⟨kw, hmem, hinc⟩
    have hfind : (((config.getD {}).skip.getD []).find?
        (fun kw => jsIncludes (lower prompt) (lower kw))).isSome := by
      rw [List.find?_isSome]
      exact ⟨kw, hmem, hinc⟩
    obtain ⟨kw', hkw'⟩ := Option.isSome_iff_exists.mp hfind
    constructor <;> simp [triagePrompt, hkw']
  · intro hnone ⟨kw, hmem, hinc⟩
    have hfind : (((config.getD {}).skip.getD []).find?
        (fun kw => jsIncludes (lower prompt) (lower kw))) = none := by
      rw [List.find?_eq_none]
      intro x hx
      simp [hnone x hx]
    by_cases hms : isMultiStep prompt = true
    · right; right; simp [triagePrompt, hfind, hms]
    · by_cases hcs : detectCrossService prompt (config.getD {}) = []
      · have hfind2 : (((config.getD {}).alwaysCheck.getD []).find?
            (fun kw => jsIncludes (lower prompt) (lower kw))).isSome := by
          rw [List.find?_isSome]
          exact ⟨kw, hmem, hinc⟩
        obtain ⟨kw', hkw'⟩ := Option.isSome_iff_exists.mp hfind2
        left
        simp [triagePrompt, hfind, hms, hcs, hkw']
      · right; left
        simp [triagePrompt, hfind, hms, hcs]

/-- C2 witness: both amended conjuncts applied at concrete inputs. -/
theorem triage_priority_amended_witness :
    ((triagePrompt "fix it so ok"
        (some { skip := some ["ok"], alwaysCheck := some ["it"] })).level =
        TriageLevel.trivial ∧
      (triagePrompt "fix it so ok"
        (some { skip := some ["ok"], alwaysCheck := some ["it"] })).confidence = 0.95) ∧
    ((triagePrompt "please handle the migration work"
        (some { alwaysCheck := some ["migration"] })).level = TriageLevel.ambiguous ∨
     (triagePrompt "please handle the migration work"
        (some { alwaysCheck := some ["migration"] })).level = TriageLevel.crossService ∨
     (triagePrompt "please handle the migration work"
        (some { alwaysCheck := some ["migration"] })).level = TriageLevel.multiStep) := by
  constructor
  · exact (triage_priority_amended "fix it so ok"
      (some { skip := some ["ok"], alwaysCheck := some ["it"] })).1
      ⟨"ok", by decide, by decide⟩
  · exact (triage_priority_amended "please handle the migration work"
      (some { alwaysCheck := some ["migration"] })).2
      (by decide) ⟨"migration", by decide, by decide⟩

-- ═══════════════════════════════════════════════════════════════════════════
-- C9 — short bare-file-path prompts
-- ═══════════════════════════════════════════════════════════════════════════

/-- C9 counterexample: `"src/a.ts"` is syntactically just a bare file path
(it matches the sibling implementation's `isFilePath` in full), is
shorter than 20 characters, matches no configured keyword (none are
configured) and no multi-step indicator — yet `triagePrompt` returns
`clear`, not the claimed `trivial`: this `triagePrompt` has no bare-path
trivial branch. -/
theorem triage_bare_path_cx :
    isFilePath "src/a.ts" = true ∧
    (jsTrim "src/a.ts").length < 20 ∧
    isMultiStep "src/a.ts" = false ∧
    detectCrossService "src/a.ts" {} = [] ∧
    (triagePrompt "src/a.ts" none).level = TriageLevel.clear ∧
    (triagePrompt "src/a.ts" none).level ≠ TriageLevel.trivial := by
  refine ⟨by decide, by decide, by decide, by decide, by decide, by decide⟩

/-- C9 (amended): a prompt shorter than 20 characters that matches no
configured skip or always-check keyword, produces no cross-service hit
(configured or built-in), matches no multi-step indicator, is not a
trivial command, and — being a bare file path — has a file reference but
no vague-pronoun or vague-verb signal, is classified `clear` (not
`trivial`): the path counts as a file reference and falls through to the
clear branch. -/
theorem triage_bare_path_amended (prompt : String) (config : Option TriageConfig)
    (hlen : (jsTrim prompt).length < 20)
    (hskip : ∀ kw ∈ (config.getD {}).skip.getD [],
      jsIncludes (lower prompt) (lower kw) = false)
    (hms : isMultiStep prompt = false)
    (hcs : detectCrossService prompt (config.getD {}) = [])
    (hac : ∀ kw ∈ (config.getD {}).alwaysCheck.getD [],
      jsIncludes (lower prompt) (lower kw) = false)
    (htc : isTrivialCommand prompt = false)
    (hfr : hasFileRefs prompt = true)
    (hvp : hasVaguePronouns prompt = false)
    (hvv : hasVagueVerbs prompt = false) :
    (triagePrompt prompt config).level = TriageLevel.clear := by
  have hfind : (((config.getD {}).skip.getD []).find?
      (fun kw => jsIncludes (lower prompt) (lower kw))) = none := by
    rw [List.find?_eq_none]
    intro x hx
    simp [hskip x hx]
  have hfind2 : (((config.getD {}).alwaysCheck.getD []).find?
      (fun kw => jsIncludes (lower prompt) (lower kw))) = none := by
    rw [List.find?_eq_none]
    intro x hx
    simp [hac x hx]
  simp [triagePrompt, hfind, hfind2, hms, hcs, htc, hfr, hvp, hvv, hlen]

/-- C9 witness for the amended theorem at the concrete path `"src/a.ts"`. -/
theorem triage_bare_path_amended_witness :
    (triagePrompt "src/a.ts" none).level = TriageLevel.clear :=
  triage_bare_path_amended "src/a.ts" none (by decide) (by decide) (by decide)
    (by decide) (by decide) (by decide) (by decide) (by decide) (by decide)

-- ═══════════════════════════════════════════════════════════════════════════
-- C8 — every category score and the overall score lie in [0, 100]
-- ═══════════════════════════════════════════════════════════════════════════

theorem clamp_bounds (v : ℚ) : 0 ≤ clamp v ∧ clamp v ≤ 100 := by
  unfold clamp
  refine ⟨le_max_left 0 _, max_le (by norm_num) (min_le_left _ _)⟩

theorem scorePlans_bounds (s : List ParsedSession) :
    0 ≤ (scorePlans s).score ∧ (scorePlans s).score ≤ 100 := by
  unfold scorePlans
  split
  · exact ⟨by norm_num, by norm_num⟩
  · exact clamp_bounds _

theorem scoreClarification_bounds (s : List ParsedSession) :
    0 ≤ (scoreClarification s).score ∧ (scoreClarification s).score ≤ 100 :=
  clamp_bounds _

theorem scoreDelegation_bounds (s : List ParsedSession) :
    0 ≤ (scoreDelegation s).score ∧ (scoreDelegation s).score ≤ 100 := by
  unfold scoreDelegation
  dsimp only
  split
  · exact ⟨by norm_num, by norm_num⟩
  · exact clamp_bounds _

theorem scoreFollowUpSpecificity_bounds (s : List ParsedSession) :
    0 ≤ (scoreFollowUpSpecificity s).score ∧ (scoreFollowUpSpecificity s).score ≤ 100 :=
  clamp_bounds _

theorem scoreTokenEfficiency_bounds (s : List ParsedSession) :
    0 ≤ (scoreTokenEfficiency s).score ∧ (scoreTokenEfficiency s).score ≤ 100 :=
  clamp_bounds _

theorem scoreSequencing_bounds (s : List ParsedSession) :
    0 ≤ (scoreSequencing s).score ∧ (scoreSequencing s).score ≤ 100 :=
  clamp_bounds _

theorem scoreCompactionManagement_bounds (s : List ParsedSession) :
    0 ≤ (scoreCompactionManagement s).score ∧ (scoreCompactionManagement s).score ≤ 100 := by
  unfold scoreCompactionManagement
  dsimp only
  split
  · exact ⟨by norm_num, by norm_num⟩
  · exact clamp_bounds _

theorem scoreSessionLifecycle_bounds (s : List ParsedSession) :
    0 ≤ (scoreSessionLifecycle s).score ∧ (scoreSessionLifecycle s).score ≤ 100 := by
  unfold scoreSessionLifecycle
  split
  · exact ⟨by norm_num, by norm_num⟩
  · exact clamp_bounds _

theorem scoreErrorRecovery_bounds (s : List ParsedSession) :
    0 ≤ (scoreErrorRecovery s).score ∧ (scoreErrorRecovery s).score ≤ 100 := by
  unfold scoreErrorRecovery
  dsimp only
  split
  · exact ⟨by norm_num, by norm_num⟩
  · split
    · exact clamp_bounds _
    · exact clamp_bounds _

theorem scoreWorkspaceHygiene_bounds (s : List ParsedSession) :
    0 ≤ (scoreWorkspaceHygiene s).score ∧ (scoreWorkspaceHygiene s).score ≤ 100 :=
  clamp_bounds _

theorem scoreCrossSessionContinuity_bounds (s : List ParsedSession) :
    0 ≤ (scoreCrossSessionContinuity s).score ∧ (scoreCrossSessionContinuity s).score ≤ 100 := by
  unfold scoreCrossSessionContinuity
  split
  · exact ⟨by norm_num, by norm_num⟩
  · exact clamp_bounds _

theorem scoreVerification_bounds (s : List ParsedSession) :
    0 ≤ (scoreVerification s).score ∧ (scoreVerification s).score ≤ 100 := by
  unfold scoreVerification
  split
  · exact ⟨by norm_num, by norm_num⟩
  · exact clamp_bounds _

/-- C8: for every input session set, each of the twelve category scores of
`computeScorecard` is an integer in [0, 100] (the score field is
integer-typed because every JS assignment to it is a clamp result or an
integer constant), and the overall score also lies in [0, 100]. -/
theorem scorecard_scores_in_range (today : String) (sessions : List ParsedSession)
    (project period : String) :
    (∀ c ∈ (computeScorecard today sessions project period).categories,
      0 ≤ c.score ∧ c.score ≤ 100) ∧
    (computeScorecard today sessions project period).categories.length = 12 ∧
    0 ≤ (computeScorecard today sessions project period).overall ∧
    (computeScorecard today sessions project period).overall ≤ 100 := by
  refine ⟨?_, rfl, (clamp_bounds _).1, (clamp_bounds _).2⟩
  intro c hc
  simp only [computeScorecard, List.mem_cons, List.not_mem_nil, or_false] at hc
  rcases hc with rfl | rfl | rfl | rfl | rfl | rfl | rfl | rfl | rfl | rfl | rfl | rfl
  · exact scorePlans_bounds sessions
  · exact scoreClarification_bounds sessions
  · exact scoreDelegation_bounds sessions
  · exact scoreFollowUpSpecificity_bounds sessions
  · exact scoreTokenEfficiency_bounds sessions
  · exact scoreSequencing_bounds sessions
  · exact scoreCompactionManagement_bounds sessions
  · exact scoreSessionLifecycle_bounds sessions
  · exact scoreErrorRecovery_bounds sessions
  · exact scoreWorkspaceHygiene_bounds sessions
  · exact scoreCrossSessionContinuity_bounds sessions
  · exact scoreVerification_bounds sessions

/-- C8 witness: the range theorem applied to the Plans category of an empty
session set. -/
theorem scorecard_scores_in_range_witness :
    0 ≤ (scorePlans []).score ∧ (scorePlans []).score ≤ 100 :=
  (scorecard_scores_in_range "2026-01-01" [] "p" "week").1 (scorePlans [])
    (List.mem_cons_self _ _)

-- ═══════════════════════════════════════════════════════════════════════════
-- C10 — highlight tie-breaking
-- ═══════════════════════════════════════════════════════════════════════════

theorem insertDesc_ne_nil (x : CategoryScore) (l : List CategoryScore) :
    insertDesc x l ≠ [] := by
  cases l with
  | nil => simp [insertDesc]
  | cons y ys =>
    simp only [insertDesc]
    split <;> simp

theorem sortByScoreDesc_cons (c : CategoryScore) (l : List CategoryScore) :
    sortByScoreDesc (c :: l) = insertDesc c (sortByScoreDesc l) := rfl

theorem sortByScoreDesc_ne_nil (c : CategoryScore) (l : List CategoryScore) :
    sortByScoreDesc (c :: l) ≠ [] := by
  rw [sortByScoreDesc_cons]
  exact insertDesc_ne_nil c _

/-- Head of the stable descending sort: the earliest maximum. -/
theorem headD_sortByScoreDesc (l : List CategoryScore) :
    ∀ c d, (sortByScoreDesc (c :: l)).headD d = firstMaxBy c l := by
  induction l with
  | nil => intro c d; rfl
  | cons y ys ih =>
    intro c d
    obtain ⟨z, zs, hz⟩ := List.exists_cons_of_ne_nil (sortByScoreDesc_ne_nil y ys)
    have hz' : z = firstMaxBy y ys := by
      have h := ih y d
      rw [hz] at h
      simpa using h
    rw [sortByScoreDesc_cons, hz]
    show (insertDesc c (z :: zs)).headD d = firstMaxBy c (y :: ys)
    rw [show firstMaxBy c (y :: ys) =
      if (firstMaxBy y ys).score > c.score then firstMaxBy y ys else c from rfl, ← hz']
    by_cases h : c.score ≥ z.score
    · rw [if_neg (not_lt.mpr h)]
      simp [insertDesc, if_pos h]
    · rw [if_pos (lt_of_not_ge h)]
      simp [insertDesc, if_neg h]

/-- Sortedness (weakly descending scores) of the stable sort. -/
theorem insertDesc_chain (x : CategoryScore) (l : List CategoryScore)
    (hl : l.Chain' (fun a b => b.score ≤ a.score)) :
    (insertDesc x l).Chain' (fun a b => b.score ≤ a.score) := by
  induction l with
  | nil => simp [insertDesc]
  | cons y ys ih =>
    rw [List.chain'_cons'] at hl
    simp only [insertDesc]
    split
    · rename_i h
      rw [List.chain'_cons]
      exact ⟨h, List.chain'_cons'.mpr hl⟩
    · rename_i h
      rw [List.chain'_cons']
      refine ⟨?_, ih hl.2⟩
      intro w hw
      cases ys with
      | nil =>
        simp [insertDesc] at hw
        subst hw
        exact le_of_lt (lt_of_not_ge h)
      | cons z zs =>
        simp only [insertDesc] at hw
        split at hw
        · simp at hw
          subst hw
          exact le_of_lt (lt_of_not_ge h)
        · simp at hw
          subst hw
          exact hl.1 z rfl

theorem sortByScoreDesc_chain (l : List CategoryScore) :
    (sortByScoreDesc l).Chain' (fun a b => b.score ≤ a.score) := by
  induction l with
  | nil => simp [sortByScoreDesc]
  | cons c cs ih =>
    rw [sortByScoreDesc_cons]
    exact insertDesc_chain c _ ih

/-- In a weakly descending list the last element's score bounds the head's. -/
theorem chain_getLastD_le (y : CategoryScore) (ys : List CategoryScore) (d : CategoryScore)
    (h : (y :: ys).Chain' (fun a b => b.score ≤ a.score)) :
    ((y :: ys).getLastD d).score ≤ y.score := by
  induction ys generalizing y d with
  | nil => simp
  | cons z zs ih =>
    rw [List.getLastD_cons]
    have h' := List.chain'_cons.mp h
    calc ((z :: zs).getLastD y).score ≤ z.score := ih z y h'.2
      _ ≤ y.score := h'.1

/-- Last element after inserting into a weakly descending list. -/
theorem getLastD_insertDesc (x : CategoryScore) (l : List CategoryScore) (d : CategoryScore)
    (hl : l.Chain' (fun a b => b.score ≤ a.score)) :
    (insertDesc x l).getLastD d =
      if l = [] then x
      else if x.score < (l.getLastD d).score then x else l.getLastD d := by
  induction l generalizing d with
  | nil => simp [insertDesc]
  | cons y ys ih =>
    rw [if_neg (List.cons_ne_nil y ys)]
    simp only [insertDesc]
    split
    · rename_i h
      have hle : ((y :: ys).getLastD d).score ≤ y.score := chain_getLastD_le y ys d hl
      rw [if_neg (not_lt.mpr (le_trans hle h))]
      simp [List.getLastD_cons]
    · rename_i h
      have hys := (List.chain'_cons'.mp hl).2
      rw [List.getLastD_cons, ih y hys]
      cases ys with
      | nil => simp [lt_of_not_ge h]
      | cons z zs =>
        simp only [List.getLastD_cons]
        rw [if_neg (List.cons_ne_nil z zs)]

/-- Last element of the stable descending sort: the latest minimum. -/
theorem getLastD_sortByScoreDesc (l : List CategoryScore) :
    ∀ c d, (sortByScoreDesc (c :: l)).getLastD d = lastMinBy c l := by
  induction l with
  | nil => intro c d; rfl
  | cons y ys ih =>
    intro c d
    rw [sortByScoreDesc_cons,
      getLastD_insertDesc c _ d (sortByScoreDesc_chain (y :: ys)),
      if_neg (sortByScoreDesc_ne_nil y ys), ih y d]
    rw [show lastMinBy c (y :: ys) =
      if (lastMinBy y ys).score ≤ c.score then lastMinBy y ys else c from rfl]
    by_cases h : (lastMinBy y ys).score ≤ c.score
    · rw [if_pos h, if_neg (not_lt.mpr h)]
    · rw [if_neg h, if_pos (lt_of_not_ge h)]

/-- `firstMaxBy` dominates every element. -/
theorem firstMaxBy_ge (c : CategoryScore) (l : List CategoryScore) :
    ∀ x ∈ c :: l, x.score ≤ (firstMaxBy c l).score := by
  induction l generalizing c with
  | nil => simp [firstMaxBy]
  | cons y ys ih =>
    intro x hx
    simp only [firstMaxBy]
    rcases List.mem_cons.mp hx with rfl | hx'
    · split
      · rename_i h
        exact le_of_lt h
      · exact le_refl _
    · have hm := ih y x hx'
      split
      · exact hm
      · rename_i h
        exact le_trans hm (le_of_not_lt h)

/-- `lastMinBy` is below every element. -/
theorem lastMinBy_le (c : CategoryScore) (l : List CategoryScore) :
    ∀ x ∈ c :: l, (lastMinBy c l).score ≤ x.score := by
  induction l generalizing c with
  | nil => simp [lastMinBy]
  | cons y ys ih =>
    intro x hx
    simp only [lastMinBy]
    rcases List.mem_cons.mp hx with rfl | hx'
    · split
      · rename_i h
        exact h
      · exact le_refl _
    · have hm := ih y x hx'
      split
      · exact hm
      · rename_i h
        exact le_trans (le_of_lt (lt_of_not_ge h)) hm

/-- C10 counterexample: one session holding a single compaction event ties
four categories at the minimal score 0 — Plans (first in canonical
order), Compaction Management, Cross-Session Continuity and Verification
— yet `highlights.worst` is Verification, the *last* of the tied
categories, not Plans as the claim requires. -/
theorem scorecard_worst_tiebreak_cx :
    ((computeScorecard "2026-01-01"
        [classifyEvents trivialOracle
          [{ id := 0, timestamp := "", type := "compaction", project := "p",
             project_name := "p", branch := "", session_id := "s",
             source_file := "f", source_line := 1, content := "",
             content_preview := "", metadata := "" }]] "proj" "all").categories.map
      (fun c => (c.name, c.score)) =
      [("Plans", 0), ("Clarification", 100), ("Delegation", 75),
       ("Follow-up Specificity", 100), ("Token Efficiency", 100),
       ("Sequencing", 100), ("Compaction Management", 0),
       ("Session Lifecycle", 100), ("Error Recovery", 95),
       ("Workspace Hygiene", 75), ("Cross-Session Continuity", 0),
       ("Verification", 0)]) ∧
    (computeScorecard "2026-01-01"
        [classifyEvents trivialOracle
          [{ id := 0, timestamp := "", type := "compaction", project := "p",
             project_name := "p", branch := "", session_id := "s",
             source_file := "f", source_line := 1, content := "",
             content_preview := "", metadata := "" }]] "proj" "all").highlights.worst.name =
      "Verification" ∧
    (computeScorecard "2026-01-01"
        [classifyEvents trivialOracle
          [{ id := 0, timestamp := "", type := "compaction", project := "p",
             project_name := "p", branch := "", session_id := "s",
             source_file := "f", source_line := 1, content := "",
             content_preview := "", metadata := "" }]] "proj" "all").highlights.worst.name ≠
      "Plans" ∧
    (computeScorecard "2026-01-01"
        [classifyEvents trivialOracle
          [{ id := 0, timestamp := "", type := "compaction", project := "p",
             project_name := "p", branch := "", session_id := "s",
             source_file := "f", source_line := 1, content := "",
             content_preview := "", metadata := "" }]] "proj" "all").highlights.best.name =
      "Clarification" := by
  refine ⟨by with_unfolding_all decide, by with_unfolding_all decide,
    by with_unfolding_all decide, by with_unfolding_all decide⟩

/-- C10 (amended): `highlights.best` is the maximum-score category with ties
broken toward the *first* in canonical order, while `highlights.worst` is
the minimum-score category with ties broken toward the *last* in
canonical order (the stable descending sort keeps tied minima in
canonical order at its tail, and the worst is taken from the tail). -/
theorem scorecard_highlights_tiebreak (today : String) (sessions : List ParsedSession)
    (project period : String) :
    let sc := computeScorecard today sessions project period
    sc.highlights.best = firstMaxBy (sc.categories.headD default) sc.categories.tail ∧
    sc.highlights.worst = lastMinBy (sc.categories.headD default) sc.categories.tail ∧
    (∀ c ∈ sc.categories, c.score ≤ sc.highlights.best.score) ∧
    (∀ c ∈ sc.categories, sc.highlights.worst.score ≤ c.score) := by
  intro sc
  have hb : sc.highlights.best =
      firstMaxBy (sc.categories.headD default) sc.categories.tail :=
    headD_sortByScoreDesc _ _ _
  have hw : sc.highlights.worst =
      lastMinBy (sc.categories.headD default) sc.categories.tail :=
    getLastD_sortByScoreDesc _ _ _
  refine ⟨hb, hw, ?_, ?_⟩
  · intro c hc
    rw [hb]
    exact firstMaxBy_ge _ _ c hc
  · intro c hc
    rw [hw]
    exact lastMinBy_le _ _ c hc

/-- C10 witness: the tie-break characterization applied to the concrete
one-compaction session set, whose `∀`-parts are instantiated at the
Plans category. -/
theorem scorecard_highlights_tiebreak_witness :
    (scorePlans [classifyEvents trivialOracle
      [{ id := 0, timestamp := "", type := "compaction", project := "p",
         project_name := "p", branch := "", session_id := "s",
         source_file := "f", source_line := 1, content := "",
         content_preview := "", metadata := "" }]]).score ≤
    (computeScorecard "2026-01-01"
      [classifyEvents trivialOracle
        [{ id := 0, timestamp := "", type := "compaction", project := "p",
           project_name := "p", branch := "", session_id := "s",
           source_file := "f", source_line := 1, content := "",
           content_preview := "", metadata := "" }]] "proj" "all").highlights.best.score :=
  (scorecard_highlights_tiebreak "2026-01-01"
    [classifyEvents trivialOracle
      [{ id := 0, timestamp := "", type := "compaction", project := "p",
         project_name := "p", branch := "", session_id := "s",
         source_file := "f", source_line := 1, content := "",
         content_preview := "", metadata := "" }]] "proj" "all").2.2.1
    (scorePlans [classifyEvents trivialOracle
      [{ id := 0, timestamp := "", type := "compaction", project := "p",
         project_name := "p", branch := "", session_id := "s",
         source_file := "f", source_line := 1, content := "",
         content_preview := "", metadata := "" }]])
    (List.mem_cons_self _ _)

-- ═══════════════════════════════════════════════════════════════════════════
-- C4 — correction patterns: "undo" yes, "revert" no
-- ═══════════════════════════════════════════════════════════════════════════

/-- C4 counterexample: the reversal phrase `"revert"` is not among the
session parser's correction patterns, so the user message
`"please revert"` arriving immediately after an assistant record is
emitted as a `prompt` event, not the claimed `correction`. -/
theorem revert_not_correction_cx :
    isCorrection "please revert" = false ∧
    (processRecord trivialOracle
      (JValue.obj [("type", .str "user"),
                   ("message", .obj [("content", .str "please revert")])])
      "f" "p" "n" "" "s" "FB" 1 "assistant").map (·.type) = ["prompt"] := by
  refine ⟨by decide, by decide⟩

/-- Extracted text of a user record (`extractText(obj.message?.content)`). -/
def userRecText (obj : JValue) : String :=
  extractText (jGetOpt (jGet obj "message") "content")

/-- C4 (amended): the parser's correction patterns are the seven phrases
`no`, `wrong`, `not that`, `i meant`, `actually`, `instead`, `undo` —
reversal is detected for `undo` only, `revert` is absent — and every
user record with nonempty pattern-matching text that immediately follows
an assistant record is emitted as a single `correction` event. -/
theorem correction_patterns_amended (d : DateOracle)
    (filePath project projectName branch sessionId fallbackTs : String)
    (lineNum : ℕ) (obj : JValue)
    (hu : recType obj = "user")
    (ht : userRecText obj ≠ "")
    (hc : isCorrection (userRecText obj) = true) :
    "undo" ∈ CORRECTION_PATTERNS ∧ "revert" ∉ CORRECTION_PATTERNS ∧
    (processRecord d obj filePath project projectName branch sessionId fallbackTs
      lineNum "assistant").map (·.type) = ["correction"] := by
  refine ⟨by decide, by decide, ?_⟩
  unfold processRecord
  rw [if_pos hu]
  dsimp only
  rw [if_neg (by simpa [userRecText] using ht)]
  simp [userRecText] at hc
  simp [hc, makeEvent]

/-- C4 witness: the amended theorem applied to a concrete `undo` record
after an assistant turn. -/
theorem correction_patterns_amended_witness :
    "undo" ∈ CORRECTION_PATTERNS ∧ "revert" ∉ CORRECTION_PATTERNS ∧
    (processRecord trivialOracle
      (JValue.obj [("type", .str "user"),
                   ("message", .obj [("content", .str "undo that change")])])
      "f" "p" "n" "" "s" "FB" 1 "assistant").map (·.type) = ["correction"] :=
  correction_patterns_amended trivialOracle "f" "p" "n" "" "s" "FB" 1
    (JValue.obj [("type", .str "user"),
                 ("message", .obj [("content", .str "undo that change")])])
    (by decide) (by decide) (by decide)

-- ═══════════════════════════════════════════════════════════════════════════
-- Parser structure lemmas (for C1, C3, C6)
-- ═══════════════════════════════════════════════════════════════════════════

/-- The event types the session parser can emit (no `user_prompt`,
`assistant_response` or `git_commit`). -/
def parserEventTypes : List String :=
  ["prompt", "assistant", "tool_call", "sub_agent_spawn", "correction", "compaction", "error"]

/-- A line is valid when its trimmed text is nonempty and parses as JSON. -/
def validLine (jp : String → Option JValue) (l : String) : Bool :=
  if jsTrim l = "" then false else (jp (jsTrim l)).isSome

theorem processRecord_srcline (d : DateOracle) (obj : JValue)
    (fp pr pn br sid fb : String) (ln : ℕ) (lt : String) :
    ∀ e ∈ processRecord d obj fp pr pn br sid fb ln lt, e.source_line = ln := by
  intro e he
  unfold processRecord at he
  dsimp only at he
  split at he
  · split at he
    · simp at he
    · simp at he
      subst he
      rfl
  · split at he
    · rw [List.mem_append] at he
      rcases he with he | he
      · split at he
        · simp at he
        · simp at he
          subst he
          rfl
      · rw [List.mem_map] at he
        obtain ⟨tool, -, rfl⟩ := he
        rfl
    · split at he
      · split at he
        · simp at he
          subst he
          rfl
        · simp at he
      · split at he
        · split at he
          · simp at he
            subst he
            rfl
          · simp at he
        · simp at he

theorem processRecord_types (d : DateOracle) (obj : JValue)
    (fp pr pn br sid fb : String) (ln : ℕ) (lt : String) :
    ∀ e ∈ processRecord d obj fp pr pn br sid fb ln lt, e.type ∈ parserEventTypes := by
  intro e he
  unfold processRecord at he
  dsimp only at he
  split at he
  · split at he
    · simp at he
    · simp at he
      subst he
      by_cases h : lt = "assistant" ∧ isCorrection (extractText (jGetOpt (jGet obj "message") "content")) = true
      · simp [makeEvent, h, parserEventTypes]
      · simp [makeEvent, h, parserEventTypes]
  · split at he
    · rw [List.mem_append] at he
      rcases he with he | he
      · split at he
        · simp at he
        · simp at he
          subst he
          simp [makeEvent, parserEventTypes]
      · rw [List.mem_map] at he
        obtain ⟨tool, -, rfl⟩ := he
        dsimp only [makeEvent]
        split <;> simp [parserEventTypes]
    · split at he
      · split at he
        · simp at he
          subst he
          simp [makeEvent, parserEventTypes]
        · simp at he
      · split at he
        · split at he
          · simp at he
            subst he
            simp [makeEvent, parserEventTypes]
          · simp at he
        · simp at he

theorem lineStep_invalid (d : DateOracle) (jp : String → Option JValue)
    (fp pr pn fb : String) (st : PState) (i : ℕ) (l : String)
    (h : validLine jp l = false) :
    lineStep d jp fp pr pn fb st i l = ([], st) := by
  unfold lineStep
  unfold validLine at h
  split at h
  · rename_i h0
    rw [if_pos h0]
  · rename_i h0
    rw [if_neg h0]
    cases hj : jp (jsTrim l) with
    | none => rfl
    | some obj => rw [hj] at h; simp at h

theorem lineStep_srcline (d : DateOracle) (jp : String → Option JValue)
    (fp pr pn fb : String) (st : PState) (i : ℕ) (l : String) :
    ∀ e ∈ (lineStep d jp fp pr pn fb st i l).1, e.source_line = i + 1 := by
  intro e he
  unfold lineStep at he
  dsimp only at he
  split at he
  · simp at he
  · split at he
    · simp at he
    · rename_i obj
      split at he
      · simp at he
      · exact processRecord_srcline d _ fp pr pn _ _ fb (i + 1) _ e he

theorem lineStep_types (d : DateOracle) (jp : String → Option JValue)
    (fp pr pn fb : String) (st : PState) (i : ℕ) (l : String) :
    ∀ e ∈ (lineStep d jp fp pr pn fb st i l).1, e.type ∈ parserEventTypes := by
  intro e he
  unfold lineStep at he
  dsimp only at he
  split at he
  · simp at he
  · split at he
    · simp at he
    · rename_i obj
      split at he
      · simp at he
      · exact processRecord_types d _ fp pr pn _ _ fb (i + 1) _ e he

theorem runLines_append (d : DateOracle) (jp : String → Option JValue)
    (fp pr pn fb : String) (xs ys : List (ℕ × String)) :
    ∀ st, runLines d jp fp pr pn fb st (xs ++ ys) =
      runLines d jp fp pr pn fb st xs ++
      runLines d jp fp pr pn fb (runState d jp fp pr pn fb st xs) ys := by
  induction xs with
  | nil => intro st; rfl
  | cons p ps ih =>
    intro st
    obtain ⟨i, l⟩ := p
    simp only [List.cons_append, runLines, runState]
    rw [show ps.append ys = ps ++ ys from rfl, ih, List.append_assoc]

theorem runLines_filter_valid (d : DateOracle) (jp : String → Option JValue)
    (fp pr pn fb : String) (xs : List (ℕ × String)) :
    ∀ st, runLines d jp fp pr pn fb st xs =
      runLines d jp fp pr pn fb st (xs.filter (fun p => validLine jp p.2)) := by
  induction xs with
  | nil => intro st; rfl
  | cons p ps ih =>
    intro st
    obtain ⟨i, l⟩ := p
    simp only [List.filter_cons]
    by_cases hv : validLine jp l = true
    · rw [if_pos (by simpa using hv)]
      simp only [runLines, ih]
    · rw [if_neg (by simpa using hv)]
      have hz := lineStep_invalid d jp fp pr pn fb st i l (by simpa using hv)
      simp only [runLines, hz]
      simpa using ih st

theorem runLines_srcline_mem (d : DateOracle) (jp : String → Option JValue)
    (fp pr pn fb : String) (xs : List (ℕ × String)) :
    ∀ st, ∀ e ∈ runLines d jp fp pr pn fb st xs, ∃ p ∈ xs, e.source_line = p.1 + 1 := by
  induction xs with
  | nil => intro st e he; simp [runLines] at he
  | cons p ps ih =>
    intro st e he
    obtain ⟨i, l⟩ := p
    simp only [runLines, List.mem_append] at he
    rcases he with he | he
    · exact ⟨(i, l), List.mem_cons_self _ _, lineStep_srcline d jp fp pr pn fb st i l e he⟩
    · obtain ⟨q, hq, hq'⟩ := ih _ e he
      exact ⟨q, List.mem_cons_of_mem _ hq, hq'⟩

theorem runLines_types (d : DateOracle) (jp : String → Option JValue)
    (fp pr pn fb : String) (xs : List (ℕ × String)) :
    ∀ st, ∀ e ∈ runLines d jp fp pr pn fb st xs, e.type ∈ parserEventTypes := by
  induction xs with
  | nil => intro st e he; simp [runLines] at he
  | cons p ps ih =>
    intro st e he
    obtain ⟨i, l⟩ := p
    simp only [runLines, List.mem_append] at he
    rcases he with he | he
    · exact lineStep_types d jp fp pr pn fb st i l e he
    · exact ih _ e he

theorem numberFrom_fst_ge (lines : List String) :
    ∀ i, ∀ p ∈ numberFrom i lines, i ≤ p.1 := by
  induction lines with
  | nil => intro i p hp; simp [numberFrom] at hp
  | cons l ls ih =>
    intro i p hp
    simp only [numberFrom, List.mem_cons] at hp
    rcases hp with rfl | hp
    · exact le_refl i
    · exact le_trans (Nat.le_succ i) (ih (i + 1) p hp)

theorem sorted_of_all_eq {l : List ℕ} {a : ℕ} (h : ∀ x ∈ l, x = a) :
    l.Sorted (· ≤ ·) := by
  induction l with
  | nil => simp
  | cons b bs ih =>
    rw [List.sorted_cons]
    refine ⟨?_, ih (fun x hx => h x (List.mem_cons_of_mem _ hx))⟩
    intro x hx
    rw [h b (List.mem_cons_self _ _), h x (List.mem_cons_of_mem _ hx)]

theorem runLines_sorted (d : DateOracle) (jp : String → Option JValue)
    (fp pr pn fb : String) (lines : List String) :
    ∀ i st, ((runLines d jp fp pr pn fb st (numberFrom i lines)).map
      (·.source_line)).Sorted (· ≤ ·) := by
  induction lines with
  | nil => intro i st; simp [numberFrom, runLines]
  | cons l ls ih =>
    intro i st
    simp only [numberFrom, runLines, List.map_append]
    refine List.pairwise_append.mpr ⟨?_, ih (i + 1) _, ?_⟩
    · apply sorted_of_all_eq (a := i + 1)
      intro x hx
      rw [List.mem_map] at hx
      obtain ⟨e, he, rfl⟩ := hx
      exact lineStep_srcline d jp fp pr pn fb st i l e he
    · intro a ha b hb
      rw [List.mem_map] at ha hb
      obtain ⟨e, he, rfl⟩ := ha
      obtain ⟨e', he', rfl⟩ := hb
      rw [lineStep_srcline d jp fp pr pn fb st i l e he]
      obtain ⟨q, hq, hq'⟩ := runLines_srcline_mem d jp fp pr pn fb _ _ e' he'
      rw [hq']
      have := numberFrom_fst_ge ls (i + 1) q hq
      omega

theorem mem_withIds (es : List TimelineEvent) :
    ∀ n e, e ∈ withIds es n → ∃ e' ∈ es, e = { e' with id := e.id } := by
  induction es with
  | nil => intro n e he; simp [withIds] at he
  | cons x xs ih =>
    intro n e he
    simp only [withIds, List.mem_cons] at he
    rcases he with rfl | he
    · exact ⟨x, List.mem_cons_self _ _, rfl⟩
    · obtain ⟨e', he', h⟩ := ih (n + 1) e he
      exact ⟨e', List.mem_cons_of_mem _ he', h⟩

theorem withIds_map_srcline (es : List TimelineEvent) :
    ∀ n, (withIds es n).map (·.source_line) = es.map (·.source_line) := by
  induction es with
  | nil => intro n; rfl
  | cons x xs ih =>
    intro n
    simp only [withIds, List.map_cons, ih]

-- ═══════════════════════════════════════════════════════════════════════════
-- C6 — parser robustness
-- ═══════════════════════════════════════════════════════════════════════════

/-- C6: for any mix of lines, the parser's result is exactly the result of
parsing only the valid lines (nonempty after trimming and JSON-parseable)
at their original line numbers — invalid lines are skipped and change no
state — and the emitted events carry non-decreasing `source_line` values;
the embedding is a total function, so no input makes it throw. -/
theorem parser_robustness (d : DateOracle) (jp : String → Option JValue)
    (lines : List String) (filePath project projectName fallbackTs : String) :
    parseLinesSync d jp lines filePath project projectName fallbackTs =
      withIds (runLines d jp filePath project projectName fallbackTs
        (initState filePath)
        ((numberFrom 0 lines).filter (fun p => validLine jp p.2))) 0 ∧
    ((parseLinesSync d jp lines filePath project projectName fallbackTs).map
      (·.source_line)).Sorted (· ≤ ·) := by
  constructor
  · unfold parseLinesSync
    rw [← runLines_filter_valid]
  · unfold parseLinesSync
    rw [withIds_map_srcline]
    exact runLines_sorted d jp filePath project projectName fallbackTs lines 0 (initState filePath)

-- ═══════════════════════════════════════════════════════════════════════════
-- C1 — parser/classifier type mismatch empties the prompt partitions
-- ═══════════════════════════════════════════════════════════════════════════

theorem parserEventTypes_ne (t : String) (h : t ∈ parserEventTypes) :
    t ≠ "user_prompt" ∧ t ≠ "assistant_response" ∧ t ≠ "git_commit" := by
  fin_cases h <;> exact ⟨by decide, by decide, by decide⟩

theorem foldl_add_userMessages_len (sessions : List ParsedSession)
    (h : ∀ s ∈ sessions, s.userMessages = []) :
    ∀ n : ℕ, sessions.foldl (fun acc s => acc + s.userMessages.length) n = n := by
  induction sessions with
  | nil => intro n; rfl
  | cons s ss ih =>
    intro n
    simp only [List.foldl_cons, h s (List.mem_cons_self _ _), List.length_nil, Nat.add_zero]
    exact ih (fun x hx => h x (List.mem_cons_of_mem _ hx)) n

theorem foldl_add_userMessages_countP (sessions : List ParsedSession)
    (h : ∀ s ∈ sessions, s.userMessages = []) :
    ∀ n : ℕ, sessions.foldl
      (fun acc s => acc + s.userMessages.countP (fun m => hasFileRef m.content)) n = n := by
  induction sessions with
  | nil => intro n; rfl
  | cons s ss ih =>
    intro n
    simp only [List.foldl_cons, h s (List.mem_cons_self _ _), List.countP_nil, Nat.add_zero]
    exact ih (fun x hx => h x (List.mem_cons_of_mem _ hx)) n

/-- C1: (a) every event emitted by the session parser has one of the seven
parser event types — `user_prompt`, `assistant_response` and `git_commit`
are never among them; (b) on any such event list `classifyEvents` returns
empty `userMessages`, `assistantMessages` and `commits` partitions,
because it filters for exactly those three absent strings; (c) on any
session set whose `userMessages` partitions are empty, `scoreClarification`
counts zero user prompts (its evidence reads `0/0` and, `pct` treating a
zero denominator as 100, its score is 100). -/
theorem parser_classifier_type_mismatch (d dc : DateOracle) (jp : String → Option JValue)
    (lines : List String) (filePath project projectName fallbackTs : String) :
    (∀ e ∈ parseLinesSync d jp lines filePath project projectName fallbackTs,
      e.type ∈ parserEventTypes) ∧
    (∀ events : List TimelineEvent, (∀ e ∈ events, e.type ∈ parserEventTypes) →
      (classifyEvents dc events).userMessages = [] ∧
      (classifyEvents dc events).assistantMessages = [] ∧
      (classifyEvents dc events).commits = []) ∧
    (∀ sessions : List ParsedSession, (∀ s ∈ sessions, s.userMessages = []) →
      scoreClarification sessions =
        { name := "Clarification", score := 100, grade := "A+",
          evidence := "0/0 user prompts contained file paths or specific identifiers." }) := by
  refine ⟨?_, ?_, ?_⟩
  · intro e he
    unfold parseLinesSync at he
    obtain ⟨e', he', h⟩ := mem_withIds _ _ e he
    have ht : e.type = e'.type := by rw [h]
    rw [ht]
    exact runLines_types d jp filePath project projectName fallbackTs _ _ e' he'
  · intro events hev
    refine ⟨?_, ?_, ?_⟩ <;>
      · simp only [classifyEvents]
        rw [List.filter_eq_nil_iff]
        intro e he
        have := parserEventTypes_ne e.type (hev e he)
        simp only [decide_eq_true_eq]
        tauto
  · intro sessions hs
    unfold scoreClarification
    rw [foldl_add_userMessages_len sessions hs 0,
      foldl_add_userMessages_countP sessions hs 0]
    with_unfolding_all decide

/-- C1 witness: the classifier and clarification parts of the theorem
applied at concrete inputs. -/
theorem parser_classifier_type_mismatch_witness :
    ((classifyEvents trivialOracle
        [{ id := 0, timestamp := "", type := "prompt", project := "p",
           project_name := "p", branch := "", session_id := "s",
           source_file := "f", source_line := 1, content := "hi",
           content_preview := "hi", metadata := "" }]).userMessages = [] ∧
     (classifyEvents trivialOracle
        [{ id := 0, timestamp := "", type := "prompt", project := "p",
           project_name := "p", branch := "", session_id := "s",
           source_file := "f", source_line := 1, content := "hi",
           content_preview := "hi", metadata := "" }]).assistantMessages = [] ∧
     (classifyEvents trivialOracle
        [{ id := 0, timestamp := "", type := "prompt", project := "p",
           project_name := "p", branch := "", session_id := "s",
           source_file := "f", source_line := 1, content := "hi",
           content_preview := "hi", metadata := "" }]).commits = []) ∧
    scoreClarification [] =
      { name := "Clarification", score := 100, grade := "A+",
        evidence := "0/0 user prompts contained file paths or specific identifiers." } :=
  ⟨(parser_classifier_type_mismatch trivialOracle trivialOracle noParse [] "f" "p" "n" "fb").2.1
     [{ id := 0, timestamp := "", type := "prompt", project := "p",
        project_name := "p", branch := "", session_id := "s",
        source_file := "f", source_line := 1, content := "hi",
        content_preview := "hi", metadata := "" }]
     (by intro e he; simp at he; subst he; decide),
   (parser_classifier_type_mismatch trivialOracle trivialOracle noParse [] "f" "p" "n" "fb").2.2
     [] (by intro s hs; simp at hs)⟩

-- ═══════════════════════════════════════════════════════════════════════════
-- C3 — correction gating by the preceding user/assistant record
-- ═══════════════════════════════════════════════════════════════════════════

/-- The user/assistant contribution of one raw line: `some "user"` or
`some "assistant"` when the line is valid and of that record type,
`none` otherwise (including `summary` records, which never touch
`lastType`). -/
def recUA (jp : String → Option JValue) (l : String) : Option String :=
  if jsTrim l = "" then none
  else
    match jp (jsTrim l) with
    | none => none
    | some obj =>
      if recType obj = "user" then some "user"
      else if recType obj = "assistant" then some "assistant"
      else none

/-- Reference function for the gating statement: the type of the most
recently seen valid user-or-assistant record of the given lines. -/
def lastUAType (jp : String → Option JValue) (lines : List String) : Option String :=
  (lines.filterMap (recUA jp)).getLast?

theorem lineStep_lastType (d : DateOracle) (jp : String → Option JValue)
    (fp pr pn fb : String) (st : PState) (i : ℕ) (l : String) :
    (lineStep d jp fp pr pn fb st i l).2.lastType = (recUA jp l).getD st.lastType := by
  unfold lineStep recUA
  by_cases h0 : jsTrim l = ""
  · simp [h0]
  · rw [if_neg h0, if_neg h0]
    cases hj : jp (jsTrim l) with
    | none => simp
    | some obj =>
      dsimp only
      by_cases hs : recType obj = "summary"
      · rw [if_pos hs]
        simp [hs]
      · rw [if_neg hs]
        dsimp only
        by_cases hu : recType obj = "user"
        · simp [hu]
        · by_cases ha : recType obj = "assistant"
          · simp [hu, ha]
          · simp [hu, ha]

theorem runState_lastType (d : DateOracle) (jp : String → Option JValue)
    (fp pr pn fb : String) (lines : List String) :
    ∀ i st, (runState d jp fp pr pn fb st (numberFrom i lines)).lastType =
      (lastUAType jp lines).getD st.lastType := by
  induction lines with
  | nil => intro i st; rfl
  | cons l ls ih =>
    intro i st
    simp only [numberFrom, runState]
    rw [ih (i + 1), lineStep_lastType]
    unfold lastUAType
    rw [List.filterMap_cons]
    cases hr : recUA jp l with
    | none => simp [hr]
    | some t => simp [hr, List.getLast?_cons]

theorem numberFrom_append (xs ys : List String) :
    ∀ i, numberFrom i (xs ++ ys) = numberFrom i xs ++ numberFrom (i + xs.length) ys := by
  induction xs with
  | nil => intro i; simp [numberFrom]
  | cons l ls ih =>
    intro i
    simp only [List.cons_append, numberFrom, List.length_cons]
    change (i, l) :: numberFrom (i + 1) (ls ++ ys) = _
    rw [ih (i + 1)]
    have : i + 1 + ls.length = i + (ls.length + 1) := by omega
    rw [this]

/-- C3: a valid user record with nonempty correction-matching text is
emitted as a single event whose type is `correction` exactly when the
most recently seen valid user-or-assistant record among the earlier
lines of the file was an assistant record, and `prompt` otherwise — in
particular as the first message of a file (`lastUAType = none`) or right
after another user record (`lastUAType = some "user"`) it is a `prompt`. -/
theorem correction_gating (d : DateOracle) (jp : String → Option JValue)
    (fp pr pn fb : String) (pre post : List String) (l : String) (obj : JValue)
    (hv : jsTrim l ≠ "") (hp : jp (jsTrim l) = some obj)
    (hu : recType obj = "user")
    (ht : userRecText obj ≠ "")
    (hc : isCorrection (userRecText obj) = true) :
    ∃ ev st',
      runLines d jp fp pr pn fb (initState fp) (numberFrom 0 (pre ++ l :: post)) =
        runLines d jp fp pr pn fb (initState fp) (numberFrom 0 pre) ++
        ev :: runLines d jp fp pr pn fb st' (numberFrom (pre.length + 1) post) ∧
      ev.type =
        (if lastUAType jp pre = some "assistant" then "correction" else "prompt") ∧
      ev.content = userRecText obj ∧
      ev.source_line = pre.length + 1 := by
  have ht' : ¬ (extractText (jGetOpt (jGet obj "message") "content") = "") := by
    simpa [userRecText] using ht
  have hstep : ∀ st : PState, lineStep d jp fp pr pn fb st pre.length l =
      ([makeEvent pr pn st.branch st.sessionId fp (pre.length + 1)
          (normalizeTimestamp d (jGet obj "timestamp") fb)
          (if st.lastType = "assistant" ∧ isCorrection (userRecText obj)
           then "correction" else "prompt")
          (userRecText obj) "\x7b\x7d"],
       { st with lastType := "user" }) := by
    intro st
    unfold lineStep
    rw [if_neg hv, hp]
    dsimp only
    rw [if_neg (by rw [hu]; decide)]
    unfold processRecord
    rw [if_pos hu]
    dsimp only
    rw [if_neg ht', if_pos hu]
    rfl
  set st1 := runState d jp fp pr pn fb (initState fp) (numberFrom 0 pre) with hst1
  refine ⟨makeEvent pr pn st1.branch st1.sessionId fp (pre.length + 1)
      (normalizeTimestamp d (jGet obj "timestamp") fb)
      (if st1.lastType = "assistant" ∧ isCorrection (userRecText obj)
       then "correction" else "prompt")
      (userRecText obj) "\x7b\x7d",
    { st1 with lastType := "user" }, ?_, ?_, rfl, rfl⟩
  · rw [numberFrom_append, runLines_append]
    have hmid : numberFrom (0 + pre.length) (l :: post) =
        (pre.length, l) :: numberFrom (pre.length + 1) post := by
      simp [numberFrom]
    rw [hmid]
    simp only [runLines, ← hst1, hstep st1]
    rfl
  · have hlt : st1.lastType = (lastUAType jp pre).getD "" := by
      rw [hst1]
      exact runState_lastType d jp fp pr pn fb pre 0 (initState fp)
    show (if st1.lastType = "assistant" ∧ isCorrection (userRecText obj)
          then "correction" else "prompt") =
        (if lastUAType jp pre = some "assistant" then "correction" else "prompt")
    rw [hlt, hc]
    cases hlua : lastUAType jp pre with
    | none => simp
    | some t =>
      by_cases ht2 : t = "assistant"
      · simp [ht2]
      · simp [ht2]

/-- Concrete `JSON.parse` oracle for the gating witness: line `"A"` is an
assistant record, line `"U"` a user record with correction language. -/
def jpW : String → Option JValue := fun s =>
  if s = "A" then
    some (.obj [("type", .str "assistant"), ("message", .obj [("content", .str "done")])])
  else if s = "U" then
    some (.obj [("type", .str "user"), ("message", .obj [("content", .str "no undo that")])])
  else none

/-- C3 witness: the gating theorem applied to a concrete two-line file —
an assistant record followed by a correction-worded user record. -/
theorem correction_gating_witness :
    ∃ ev st',
      runLines trivialOracle jpW "f" "p" "n" "fb" (initState "f")
          (numberFrom 0 (["A"] ++ "U" :: [])) =
        runLines trivialOracle jpW "f" "p" "n" "fb" (initState "f") (numberFrom 0 ["A"]) ++
        ev :: runLines trivialOracle jpW "f" "p" "n" "fb" st'
          (numberFrom (["A"].length + 1) []) ∧
      ev.type =
        (if lastUAType jpW ["A"] = some "assistant" then "correction" else "prompt") ∧
      ev.content = userRecText
        (JValue.obj [("type", .str "user"),
                     ("message", .obj [("content", .str "no undo that")])]) ∧
      ev.source_line = ["A"].length + 1 :=
  correction_gating trivialOracle jpW "f" "p" "n" "fb" ["A"] [] "U"
    (JValue.obj [("type", .str "user"),
                 ("message", .obj [("content", .str "no undo that")])])
    (by decide) rfl rfl (by decide) (by decide)

-- ═══════════════════════════════════════════════════════════════════════════
-- C7 — incremental baseline update
-- ═══════════════════════════════════════════════════════════════════════════

theorem lookupAvg_cons (x : String × ℤ) (xs : List (String × ℤ)) (k : String) :
    lookupAvg (x :: xs) k = if x.1 = k then some x.2 else lookupAvg xs k := by
  unfold lookupAvg
  by_cases h : x.1 = k
  · rw [List.find?_cons_of_pos _ (by simp [h]), if_pos h]
    rfl
  · rw [List.find?_cons_of_neg _ (by simp [h]), if_neg h]

theorem lookupAvg_map_set (k : String) (v : ℤ) (k' : String) (hk : k' ≠ k) :
    ∀ l : List (String × ℤ),
      lookupAvg (l.map (fun p => if p.1 = k then (k, v) else p)) k' = lookupAvg l k' := by
  intro l
  induction l with
  | nil => rfl
  | cons p ps ih =>
    simp only [List.map_cons]
    by_cases hp : p.1 = k
    · rw [if_pos hp, lookupAvg_cons, lookupAvg_cons, ih]
      rw [if_neg (by simpa using hk.symm), if_neg (by rw [hp]; exact fun h => hk h.symm)]
    · rw [if_neg hp, lookupAvg_cons, lookupAvg_cons, ih]

theorem lookupAvg_append_single (k : String) (v : ℤ) (k' : String) (hk : k' ≠ k) :
    ∀ l : List (String × ℤ), lookupAvg (l ++ [(k, v)]) k' = lookupAvg l k' := by
  intro l
  induction l with
  | nil =>
    simp only [List.nil_append]
    rw [lookupAvg_cons, if_neg (fun h => hk h.symm)]
  | cons p ps ih =>
    simp only [List.cons_append]
    rw [lookupAvg_cons, lookupAvg_cons, ih]

theorem lookupAvg_updAvg_self (l : List (String × ℤ)) (k : String) (v : ℤ) :
    lookupAvg (updAvg l k v) k = some v := by
  unfold updAvg
  split
  · rename_i h
    induction l with
    | nil => simp at h
    | cons p ps ih =>
      simp only [List.map_cons]
      by_cases hp : p.1 = k
      · rw [if_pos hp, lookupAvg_cons, if_pos rfl]
      · rw [if_neg hp, lookupAvg_cons, if_neg hp]
        exact ih (by simpa [hp] using h)
  · induction l with
    | nil =>
      simp only [List.nil_append]
      rw [lookupAvg_cons, if_pos rfl]
    | cons p ps ih =>
      rename_i h
      simp only [List.cons_append]
      have hp : ¬ p.1 = k := by
        intro hp
        exact h (by simp [List.any_cons, hp])
      rw [lookupAvg_cons, if_neg hp]
      exact ih (by intro hq; exact h (by simp [List.any_cons] at hq ⊢; exact Or.inr hq))

theorem lookupAvg_updAvg_other (l : List (String × ℤ)) (k : String) (v : ℤ)
    (k' : String) (hk : k' ≠ k) :
    lookupAvg (updAvg l k v) k' = lookupAvg l k' := by
  unfold updAvg
  split
  · exact lookupAvg_map_set k v k' hk l
  · exact lookupAvg_append_single k v k' hk l

theorem foldl_updAvg_lookup_other (f : CategoryScore → Option ℤ → ℤ) :
    ∀ (cats : List CategoryScore) (init : List (String × ℤ)) (k : String),
      (∀ c ∈ cats, c.name ≠ k) →
      lookupAvg (cats.foldl
        (fun acc c => updAvg acc c.name (f c (lookupAvg acc c.name))) init) k =
        lookupAvg init k := by
  intro cats
  induction cats with
  | nil => intro init k _; rfl
  | cons c0 cs ih =>
    intro init k h
    simp only [List.foldl_cons]
    rw [ih _ k (fun c hc => h c (List.mem_cons_of_mem _ hc)),
      lookupAvg_updAvg_other _ _ _ _ (Ne.symm (h c0 (List.mem_cons_self _ _)))]

theorem foldl_updAvg_lookup (f : CategoryScore → Option ℤ → ℤ) :
    ∀ (cats : List CategoryScore) (init : List (String × ℤ)) (c : CategoryScore),
      c ∈ cats → (cats.map (·.name)).Nodup →
      lookupAvg (cats.foldl
        (fun acc c => updAvg acc c.name (f c (lookupAvg acc c.name))) init) c.name =
        some (f c (lookupAvg init c.name)) := by
  intro cats
  induction cats with
  | nil => intro init c hc; simp at hc
  | cons c0 cs ih =>
    intro init c hc hnd
    simp only [List.map_cons, List.nodup_cons] at hnd
    simp only [List.foldl_cons]
    rcases List.mem_cons.mp hc with rfl | hc'
    · rw [foldl_updAvg_lookup_other f cs _ c.name
        (fun c' hc' h => hnd.1 (h ▸ List.mem_map_of_mem (·.name) hc')),
        lookupAvg_updAvg_self]
    · have hne : c.name ≠ c0.name := by
        intro h
        exact hnd.1 (h ▸ List.mem_map_of_mem (·.name) hc')
      rw [ih _ c hc' hnd.2, lookupAvg_updAvg_other _ _ _ _ hne]

/-- C7: with a stored baseline of average `a` over `n` sessions, one more
scorecard with overall `s` stores `overallAverage = round((a·n + s)/(n+1))`
and `sessionCount = n + 1`, and each category average follows the same
incremental-mean formula (`jsRound` is `Math.round`, see
`jsRound_eq_floor`). -/
theorem updateBaseline_incremental (now : String) (store : BaselineStore)
    (project : String) (sc : Scorecard) (b : BaselineData)
    (hload : loadBaseline store project = some b)
    (hnodup : (sc.categories.map (·.name)).Nodup) :
    ∃ b', loadBaseline (updateBaseline now store project sc) project = some b' ∧
      b'.sessionCount = b.sessionCount + 1 ∧
      b'.overallAverage =
        jsRound (((b.overallAverage * b.sessionCount + sc.overall : ℤ) : ℚ) /
          (b.sessionCount + 1)) ∧
      ∀ c ∈ sc.categories,
        lookupAvg b'.categoryAverages c.name =
          some (jsRound ((((lookupAvg b.categoryAverages c.name).getD c.score *
            b.sessionCount + c.score : ℤ) : ℚ) / (b.sessionCount + 1))) := by
  unfold updateBaseline
  rw [hload]
  dsimp only
  refine ⟨{ categoryAverages := sc.categories.foldl
              (fun acc c =>
                updAvg acc c.name
                  (jsRound
                    ((((lookupAvg acc c.name).getD c.score * b.sessionCount +
                        c.score : ℤ) : ℚ) /
                      ((b.sessionCount + 1 : ℕ) : ℚ))))
              b.categoryAverages
            overallAverage := jsRound
              (((b.overallAverage * b.sessionCount + sc.overall : ℤ) : ℚ) /
                ((b.sessionCount + 1 : ℕ) : ℚ))
            sessionCount := b.sessionCount + 1
            lastUpdated := now }, ?_, rfl, ?_, ?_⟩
  · unfold loadBaseline saveBaseline
    rw [List.find?_cons_of_pos _ (by simp)]
    rfl
  · push_cast
    rfl
  · intro c hc
    have := foldl_updAvg_lookup
      (fun c o => jsRound ((((o.getD c.score * b.sessionCount + c.score : ℤ)) : ℚ) /
        (b.sessionCount + 1)))
      sc.categories b.categoryAverages c hc hnodup
    simpa using this

/-- C7 witness: the incremental update applied to a concrete baseline
(average 70 over 2 sessions, Plans average 80) and a concrete scorecard
(overall 90, Plans 90). -/
theorem updateBaseline_incremental_witness :
    ∃ b', loadBaseline
        (updateBaseline "t2"
          [("p", { categoryAverages := [("Plans", 80)], overallAverage := 70,
                   sessionCount := 2, lastUpdated := "t1" })]
          "p"
          { project := "p", period := "all", date := "d", overall := 90,
            overallGrade := "A",
            categories := [{ name := "Plans", score := 90, grade := "A", evidence := "" }],
            highlights :=
              { best := { name := "Plans", score := 90, grade := "A", evidence := "" },
                worst := { name := "Plans", score := 90, grade := "A", evidence := "" } } })
        "p" = some b' ∧
      b'.sessionCount = 2 + 1 ∧
      b'.overallAverage = jsRound (((70 * 2 + 90 : ℤ) : ℚ) / (2 + 1)) ∧
      ∀ c ∈ [{ name := "Plans", score := 90, grade := "A",
               evidence := "" : CategoryScore }],
        lookupAvg b'.categoryAverages c.name =
          some (jsRound ((((lookupAvg [("Plans", (80 : ℤ))] c.name).getD c.score *
            2 + c.score : ℤ) : ℚ) / (2 + 1))) :=
  updateBaseline_incremental "t2"
    [("p", { categoryAverages := [("Plans", 80)], overallAverage := 70,
             sessionCount := 2, lastUpdated := "t1" })]
    "p"
    { project := "p", period := "all", date := "d", overall := 90,
      overallGrade := "A",
      categories := [{ name := "Plans", score := 90, grade := "A", evidence := "" }],
      highlights :=
        { best := { name := "Plans", score := 90, grade := "A", evidence := "" },
          worst := { name := "Plans", score := 90, grade := "A", evidence := "" } } }
    { categoryAverages := [("Plans", 80)], overallAverage := 70,
      sessionCount := 2, lastUpdated := "t1" }
    rfl (by simp)
